import Mathlib

/-!
Verification of the zeroize-audit analyzer scripts.

Each namespace below is a shallow embedding of one Python script of the
repository: pure Lean functions mirror the Python functions line by line,
Python dicts become association lists or structures, Python sets become
deduplicated lists or Finsets, and Python exceptions become `Except`.
Regular-expression searches are compiled by hand into deterministic
character-list matchers; every such matcher is written next to a comment
quoting the regex it implements.  Theorems about the claims come after all
definitions.
-/

set_option maxRecDepth 4096

namespace ZA

/-! Shared string helpers (CPython string semantics on ASCII input) -/

/-- Whitespace characters recognised by CPython `str.strip()` / regex `\s`
on the ASCII range. -/
def isPySpace (c : Char) : Bool :=
  c = ' ' || c = '\t' || c = '\n' || c = '\x0d' ||
  c = Char.ofNat 11 || c = Char.ofNat 12

/-- Python regex `\w` (ASCII): letters, digits, underscore. -/
def isWordChar (c : Char) : Bool :=
  c.isAlpha || c.isDigit || c = '_'

/-- ASCII letters, for the `(?<![a-zA-Z])` / `(?![a-zA-Z])` lookarounds. -/
def isLetter (c : Char) : Bool := c.isAlpha

/-- ASCII digit test for regex `\d`. -/
def isDigitCh (c : Char) : Bool := c.isDigit

/-- Python `str.strip()` on a character list. -/
def pyStripList (l : List Char) : List Char :=
  ((l.dropWhile isPySpace).reverse.dropWhile isPySpace).reverse

/-- Python `str.strip()`. -/
def pyStrip (s : String) : String := String.mk (pyStripList s.data)

/-- Python `str.lower()` (ASCII case folding, as all analyzer strings are ASCII). -/
def lowerStr (s : String) : String := String.mk (s.data.map Char.toLower)

/-- Python `pat` is a prefix of `s` (character lists). -/
def listStartsWith : List Char → List Char → Bool
  | [], _ => true
  | _ :: _, [] => false
  | p :: ps, c :: cs => p = c && listStartsWith ps cs

/-- Case-insensitive prefix test. -/
def listStartsWithCI : List Char → List Char → Bool
  | [], _ => true
  | _ :: _, [] => false
  | p :: ps, c :: cs => p.toLower = c.toLower && listStartsWithCI ps cs

/-- Python `pat in s` substring containment on character lists. -/
def containsPat (pat : List Char) : List Char → Bool
  | [] => listStartsWith pat []
  | s@(_ :: rest) => listStartsWith pat s || containsPat pat rest

/-- Python `pat in s` on strings. -/
def containsSub (pat s : String) : Bool := containsPat pat.data s.data

/-- Single-quote character, kept out of string literals. -/
def sq : String := String.mk [Char.ofNat 39]

/-- Python `repr` of a short string: wrap in single quotes (no escaping
needed for the identifier-like strings that reach it here). -/
def pyRepr (s : String) : String := sq ++ s ++ sq

/-- Split a string into lines, dropping the newline characters
(`str.splitlines()` for `\n`-separated text). -/
def splitLinesAux (cur : List Char) (acc : List String) : List Char → List String
  | [] => (if cur.isEmpty && acc ≠ [] then acc else String.mk cur.reverse :: acc).reverse
  | c :: cs =>
    if c = '\n' then splitLinesAux [] (String.mk cur.reverse :: acc) cs
    else splitLinesAux (c :: cur) acc cs

/-- Python `str.splitlines()` restricted to `\n` separators: trailing newline does
not produce an empty final line; an empty string gives no lines. -/
def pySplitLines (s : String) : List String :=
  if s.data = [] then [] else splitLinesAux [] [] s.data

/-- First-match association-list lookup (Python dict lookup under distinct
keys). -/
def alookup {α : Type} : List (String × α) → String → Option α
  | [], _ => none
  | (k, v) :: rest, key => if k = key then some v else alookup rest key

/-- Python dict assignment `d[k] = v`: replace in place, else append. -/
def aset {α : Type} : List (String × α) → String → α → List (String × α)
  | [], key, v => [(key, v)]
  | (k, w) :: rest, key, v =>
    if k = key then (key, v) :: rest else (k, w) :: aset rest key v

/-- Ordered deduplication (Python set built by repeated `add`, read back in
first-insertion order). -/
def dedupKeep : List String → List String
  | [] => []
  | x :: xs => x :: (dedupKeep xs).filter (fun y => ¬ (y = x))

/-! Python value model (JSON-shaped data handled by the gate and the
PoC filter) -/

inductive PyVal where
  | str (s : String)
  | int (n : Int)
  | bool (b : Bool)
  | null
  | list (xs : List PyVal)
  | obj (kvs : List (String × PyVal))

/-- Python truthiness. -/
def truthy : PyVal → Bool
  | .str s => !(s == "")
  | .int n => !(n == 0)
  | .bool b => b
  | .null => false
  | .list xs => !xs.isEmpty
  | .obj kvs => !kvs.isEmpty

end ZA

namespace ZA.Gate

/-!
Embedding: `tools/mcp/apply_confidence_gates.py`

`apply_gates` mutates a report in place; the embedding threads the report
through `Except`, since the string operations in the gate raise on
non-string evidence values.
-/

open ZA

inductive PyErr where
  | attributeError
  | typeError
deriving Repr, DecidableEq

/-- One finding dict, split into the keys `apply_gates` reads or writes
plus the untouched remainder.  `none` models an absent key. -/
structure Finding where
  category : Option PyVal
  confidence : Option PyVal
  evidence : Option PyVal
  needsReview : Option PyVal
  compilerEvidence : Option PyVal
  rest : List (String × PyVal)

/-- The overall report object `{findings: [...], summary: {...}, ...}`. -/
structure Report where
  findings : List Finding
  summary : Option PyVal
  rest : List (String × PyVal)

def noteIr : String := " [gated: missing IR/ASM evidence for optimized-away claim]"

def noteAsm : String := " [gated: missing assembly evidence]"

def noteMcp : String := " [gated: MCP unavailable for advanced semantic finding]"

/-- Python `finding.get("category") == s` (membership in a one-string set). -/
def isCat (f : Finding) (s : String) : Bool :=
  match f.category with
  | some (.str c) => c == s
  | _ => false

/-- Python `_has_compiler_evidence`: `compiler_evidence` is a dict with a truthy
value under one of `o0`, `o2`, `diff_summary`. -/
def hasCompilerEvidence (f : Finding) : Bool :=
  match f.compilerEvidence with
  | some (.obj kvs) =>
    ["o0", "o2", "diff_summary"].any (fun k => (alookup kvs k).elim false truthy)
  | _ => false

/-- Python `_has_marker(text, marker)`: `marker in text.lower()`. -/
def hasMarkerIn (text marker : String) : Bool :=
  containsSub marker (lowerStr text)

/-- Python `evidence = (finding.get("evidence") or "").lower()` — raises
`AttributeError` when the evidence value is truthy but not a string. -/
def evidenceLower (f : Finding) : Except PyErr String :=
  let v := match f.evidence with
    | some x => if truthy x then x else .str ""
    | none => .str ""
  match v with
  | .str s => .ok (lowerStr s)
  | _ => .error .attributeError

/-- One gating branch body:
`finding["needs_review"] = True` and
`finding["evidence"] = (finding.get("evidence", "") + note).strip()` —
raises `TypeError` when the present evidence value is not a string. -/
def gateEvidence (f : Finding) (note : String) : Except PyErr Finding :=
  match f.evidence.getD (.str "") with
  | .str s =>
    .ok { f with needsReview := some (.bool true),
                 evidence := some (.str (pyStrip (s ++ note))) }
  | _ => .error .typeError

/-- The per-finding body of the `for finding in findings` loop. -/
def applyGatesFinding (mcpAvailable requireMcp : Bool) (f : Finding) :
    Except PyErr Finding := do
  let ev ← evidenceLower f
  let f1 ← if isCat f "OPTIMIZED_AWAY_ZEROIZE" && !hasCompilerEvidence f then
      gateEvidence f noteIr
    else pure f
  let f2 ← if (isCat f1 "STACK_RETENTION" || isCat f1 "REGISTER_SPILL") &&
      !hasMarkerIn ev "asm" then
      gateEvidence f1 noteAsm
    else pure f1
  if requireMcp && !mcpAvailable &&
      (isCat f2 "SECRET_COPY" || isCat f2 "MISSING_ON_ERROR_PATH" ||
       isCat f2 "NOT_DOMINATING_EXITS") then
    gateEvidence f2 noteMcp
  else pure f2

def applyGatesList (m r : Bool) : List Finding → Except PyErr (List Finding)
  | [] => .ok []
  | f :: fs => do
    let g ← applyGatesFinding m r f
    let gs ← applyGatesList m r fs
    pure (g :: gs)

/-- Python `summary = report.get("summary", {}); if isinstance(summary, dict):
summary["issues_found"] = len(findings)`.  A missing summary key yields a
fresh dict that is never written back into the report. -/
def updateSummary (s : Option PyVal) (n : Nat) : Option PyVal :=
  match s with
  | some (.obj kvs) => some (.obj (aset kvs "issues_found" (.int n)))
  | other => other

/-- Python `apply_gates(report, mcp_available, require_mcp_for_advanced)`. -/
def apply_gates (report : Report) (mcpAvailable requireMcp : Bool) :
    Except PyErr Report := do
  let fs ← applyGatesList mcpAvailable requireMcp report.findings
  pure { report with findings := fs, summary := updateSummary report.summary fs.length }

/-- Evidence string seen by `finding.get("evidence", "")` in the
non-raising case. -/
def baseStr (f : Finding) : String :=
  match f.evidence with
  | some (.str s) => s
  | _ => ""

/-- Relation between an input finding and its gated output: all fields
except `needs_review` and `evidence` are preserved, and those two change
only in the shape the gate produces. -/
def gateRel (f g : Finding) : Prop :=
  g.category = f.category ∧ g.confidence = f.confidence ∧
  g.compilerEvidence = f.compilerEvidence ∧ g.rest = f.rest ∧
  ((g.needsReview = f.needsReview ∧ g.evidence = f.evidence) ∨
   (g.needsReview = some (.bool true) ∧
    ∃ note, (note = noteIr ∨ note = noteAsm ∨ note = noteMcp) ∧
      g.evidence = some (.str (pyStrip (baseStr f ++ note)))))

end ZA.Gate

namespace ZA.Poc

/-!
Embedding: `tools/generate_poc.py` — `_filter_findings`

The confidence filter of the PoC synthesizer.  A finding dict is split into
the keys `_filter_findings` reads plus its (unread) `confidence` key and
the untouched remainder.
-/

open ZA

structure Finding where
  category : Option PyVal
  needsReview : Option PyVal
  compilerEvidence : Option PyVal
  evidenceSource : Option PyVal
  confidence : Option PyVal
  rest : List (String × PyVal)

/-- Python `EXPLOITABLE_CATEGORIES`. -/
def exploitableCategories : List String :=
  ["MISSING_SOURCE_ZEROIZE", "OPTIMIZED_AWAY_ZEROIZE", "STACK_RETENTION",
   "REGISTER_SPILL", "SECRET_COPY", "MISSING_ON_ERROR_PATH", "PARTIAL_WIPE",
   "NOT_ON_ALL_PATHS", "INSECURE_HEAP_ALLOC", "LOOP_UNROLLED_INCOMPLETE",
   "NOT_DOMINATING_EXITS"]

/-- Python `_CONFIDENCE_ORDER` as a partial map. -/
def confidenceOrder (s : String) : Option Nat :=
  if s = "confirmed" then some 0
  else if s = "likely" then some 1
  else if s = "needs_review" then some 2
  else none

/-- Python `_DEFAULT_MIN_CONFIDENCE`. -/
def defaultMinConfidence : String := "likely"

/-- Python `cat = f.get("category", ""); cat not in categories` — membership of the
raw category value in a set of strings. -/
def inCategories (f : Finding) (cats : List String) : Bool :=
  match f.category with
  | some (.str s) => cats.contains s
  | some _ => false
  | none => cats.contains ""

/-- Python `"cfg" in evidence_sources` after
`evidence_sources = f.get("evidence_source", [])`, guarded by
`isinstance(evidence_sources, list)`. -/
def cfgInEvidenceSource (f : Finding) : Bool :=
  match f.evidenceSource.getD (.list []) with
  | .list xs => xs.any (fun v => match v with | .str s => s == "cfg" | _ => false)
  | _ => false

/-- The confidence string derived inside the loop; the finding's own
`confidence` key is never consulted. -/
def derivedConf (f : Finding) : String :=
  let conf := if truthy (f.needsReview.getD (.bool false)) then "needs_review" else "likely"
  let conf := if truthy (f.compilerEvidence.getD .null) then "confirmed" else conf
  let conf := if cfgInEvidenceSource f then "confirmed" else conf
  conf

/-- Loop body of `_filter_findings`: true when the finding is appended. -/
def selectFinding (f : Finding) (cats : List String) (minConfidence : Option String) : Bool :=
  if !inCategories f cats then false
  else
    match minConfidence with
    | none => true
    | some mc =>
      let threshold := (confidenceOrder mc).getD 2
      decide ((confidenceOrder (derivedConf f)).getD 2 ≤ threshold)

/-- Python `_filter_findings(findings, categories, min_confidence)`. -/
def filter_findings (findings : List Finding) (cats : List String)
    (minConfidence : Option String) : List Finding :=
  findings.filter (fun f => selectFinding f cats minConfidence)

end ZA.Poc

namespace ZA

/-!
Deterministic matchers for the analyzer regexes

A matcher `Option Char → List Char → Option α` receives the character just
before the current position (for `\b` and lookarounds) and the remaining
input, and yields a result exactly when the regex matches anchored at the
current position.  `searchBoolAux` and `finditerAux` reproduce
`re.search` / `re.finditer` over the matchers.  All the source regexes are
deterministic (no alternative needs backtracking), which is argued case by
case in the comments of the individual matchers.
-/

/-- Python `re.search` as a Boolean: try the matcher at every position. -/
def searchBoolAux (m : Option Char → List Char → Bool) : Option Char → List Char → Bool
  | _, [] => false
  | prev, c :: rest => m prev (c :: rest) || searchBoolAux m (some c) rest

def searchBool (m : Option Char → List Char → Bool) (s : String) : Bool :=
  searchBoolAux m none s.data

/-- Python `re.search` returning the first capture: try at every position. -/
def searchCapAux {α : Type} (m : Option Char → List Char → Option α) :
    Option Char → List Char → Option α
  | _, [] => none
  | prev, c :: rest =>
    match m prev (c :: rest) with
    | some a => some a
    | none => searchCapAux m (some c) rest

def searchCap {α : Type} (m : Option Char → List Char → Option α) (s : String) : Option α :=
  searchCapAux m none s.data

/-- Python `re.finditer`: collect non-overlapping matches left to right, resuming
after each match.  A matcher used here returns the capture, the last
consumed character (the `prev` for the resumed scan) and the rest of the
input; every matcher consumes at least one character, so the fuel
`s.length + 1` never runs out. -/
def finditerAux {α : Type} (m : Option Char → List Char → Option (α × Char × List Char)) :
    Nat → Option Char → List Char → List α
  | 0, _, _ => []
  | _ + 1, _, [] => []
  | fuel + 1, prev, c :: rest =>
    match m prev (c :: rest) with
    | some (a, last, r2) => a :: finditerAux m fuel (some last) r2
    | none => finditerAux m fuel (some c) rest

def finditer {α : Type} (m : Option Char → List Char → Option (α × Char × List Char))
    (s : String) : List α :=
  finditerAux m (s.data.length + 1) none s.data

/-- Python `\b` where the pattern starts with a word character. -/
def prevNotWord : Option Char → Bool
  | some c => !isWordChar c
  | none => true

/-- Python `\b` where the pattern ends with a word character. -/
def nextNotWord : List Char → Bool
  | [] => true
  | c :: _ => !isWordChar c

/-- Python `(?<![a-zA-Z])`. -/
def prevNotLetter : Option Char → Bool
  | some c => !isLetter c
  | none => true

/-- Python `(?![a-zA-Z])`. -/
def nextNotLetter : List Char → Bool
  | [] => true
  | c :: _ => !isLetter c

/-- Consume a literal. -/
def mLit (lit : List Char) (s : List Char) : Option (List Char) :=
  if listStartsWith lit s then some (s.drop lit.length) else none

/-- Consume `\s+` (at least one whitespace, then maximal run). -/
def mWs1 : List Char → Option (List Char)
  | [] => none
  | c :: rest => if isPySpace c then some (rest.dropWhile isPySpace) else none

/-- Consume `\d+` maximal, returning the digit characters. -/
def mDigits1 (s : List Char) : Option (List Char × List Char) :=
  let d := s.takeWhile isDigitCh
  if d.isEmpty then none else some (d, s.drop d.length)

/-- Consume `\w+` maximal, returning the word characters. -/
def mWord1 (s : List Char) : Option (List Char × List Char) :=
  let w := s.takeWhile isWordChar
  if w.isEmpty then none else some (w, s.drop w.length)

/-- Digits to a natural number (`int(...)` on a `\d+` capture). -/
def digitsToNat (l : List Char) : Nat :=
  l.foldl (fun n c => n * 10 + (c.toNat - 48)) 0

/-- Case-insensitive containment of any of the given keywords (used inside
`\w*(?:kw1|kw2|…)\w*` captures, where the capture is the maximal word run
and the regex matches exactly when the run contains a keyword). -/
def containsAnyCI (kws : List String) : List Char → Bool
  | [] => false
  | s@(_ :: rest) => kws.any (fun k => listStartsWithCI k.data s) || containsAnyCI kws rest

end ZA

namespace ZA.Apis

/-!
Embedding: `tools/scripts/find_dangerous_apis.py` — API pattern pass

The dangerous-API patterns are alternation-free token sequences
(literal pieces separated by `\s*`), compiled here into `Piece` lists.
-/

open ZA

/-- One piece of a dangerous-API regex. -/
inductive Piece where
  | lit (cs : String)
  | ws0

/-- Match a piece sequence anchored at the current position. -/
def matchPieces : List Piece → List Char → Option (List Char)
  | [], s => some s
  | .lit l :: ps, s =>
    match mLit l.data s with
    | some r => matchPieces ps r
    | none => none
  | .ws0 :: ps, s => matchPieces ps (s.dropWhile isPySpace)

/-- One entry of the `PATTERNS` table. -/
structure ApiPattern where
  pieces : List Piece
  endsAtWordBoundary : Bool
  category : String
  severity : String
  detail : String

/-- Anchored match of one dangerous-API pattern; every pattern starts with
`\b` followed by a word character, and `mem::transmute` ends with `\b`
after a word character. -/
def apiMatchAt (p : ApiPattern) (prev : Option Char) (s : List Char) : Bool :=
  prevNotWord prev &&
  match matchPieces p.pieces s with
  | some rest => if p.endsAtWordBoundary then nextNotWord rest else true
  | none => false

def apiSearch (p : ApiPattern) (line : String) : Bool :=
  searchBool (apiMatchAt p) line

/-- The `PATTERNS` table (regexes hand-compiled into pieces). -/
def apiPatterns : List ApiPattern :=
  [ -- \bmem::forget\s*\(
    ⟨[.lit "mem::forget", .ws0, .lit "("], false, "MISSING_SOURCE_ZEROIZE", "critical",
     "mem::forget() prevents Drop/ZeroizeOnDrop from running — secret never wiped"⟩,
    -- \bManuallyDrop\s*::\s*new\s*\(
    ⟨[.lit "ManuallyDrop", .ws0, .lit "::", .ws0, .lit "new", .ws0, .lit "("], false,
     "MISSING_SOURCE_ZEROIZE", "critical",
     "ManuallyDrop::new() suppresses automatic drop — secret not wiped unless drop() called explicitly"⟩,
    -- \bBox\s*::\s*leak\s*\(
    ⟨[.lit "Box", .ws0, .lit "::", .ws0, .lit "leak", .ws0, .lit "("], false,
     "MISSING_SOURCE_ZEROIZE", "critical",
     "Box::leak() — leaked allocation is never dropped or zeroed"⟩,
    -- \bBox\s*::\s*into_raw\s*\(
    ⟨[.lit "Box", .ws0, .lit "::", .ws0, .lit "into_raw", .ws0, .lit "("], false,
     "MISSING_SOURCE_ZEROIZE", "high",
     "Box::into_raw() — raw pointer escapes Drop; must call Box::from_raw() + zeroize to reclaim"⟩,
    -- \bptr\s*::\s*write_bytes\s*\(
    ⟨[.lit "ptr", .ws0, .lit "::", .ws0, .lit "write_bytes", .ws0, .lit "("], false,
     "OPTIMIZED_AWAY_ZEROIZE", "high",
     "ptr::write_bytes() is non-volatile — LLVM may eliminate as dead store. Use zeroize crate or add compiler_fence(SeqCst) after"⟩,
    -- \bmem\s*::\s*transmute\b
    ⟨[.lit "mem", .ws0, .lit "::", .ws0, .lit "transmute"], true,
     "SECRET_COPY", "high",
     "mem::transmute creates a bitwise copy — original and transmuted value both exist on stack"⟩,
    -- \bslice\s*::\s*from_raw_parts\s*\(
    ⟨[.lit "slice", .ws0, .lit "::", .ws0, .lit "from_raw_parts", .ws0, .lit "("], false,
     "SECRET_COPY", "medium",
     "slice::from_raw_parts creates a slice alias over raw memory — may alias a secret buffer"⟩,
    -- \bmem\s*::\s*take\s*\(
    ⟨[.lit "mem", .ws0, .lit "::", .ws0, .lit "take", .ws0, .lit "("], false,
     "MISSING_SOURCE_ZEROIZE", "medium",
     "mem::take() replaces the value in-place without zeroing the original location"⟩,
    -- \bmem\s*::\s*uninitialized\s*\(
    ⟨[.lit "mem", .ws0, .lit "::", .ws0, .lit "uninitialized", .ws0, .lit "("], false,
     "MISSING_SOURCE_ZEROIZE", "critical",
     "mem::uninitialized() is deprecated and unsafe — may expose prior secret bytes from stack memory"⟩ ]

/-- Python `SENSITIVE_NAME_RE`, branch 1: the PascalCase names with `\b` word
boundaries (the whole regex carries `(?i)`). -/
def pascalWords : List String :=
  ["Key", "PrivateKey", "SecretKey", "SigningKey", "MasterKey", "HmacKey",
   "Password", "Passphrase", "Pin", "Token", "AuthToken", "BearerToken",
   "ApiKey", "Secret", "SharedSecret", "PreSharedKey", "Nonce", "Seed",
   "Entropy", "Credential", "SessionKey", "DerivedKey"]

/-- Python `SENSITIVE_NAME_RE`, branch 2: lowercase keywords with letter
lookarounds. -/
def lowerKeywords : List String :=
  ["key", "secret", "password", "token", "nonce", "seed", "private",
   "master", "credential"]

/-- Anchored match of `SENSITIVE_NAME_RE` at one position. -/
def sensitiveNameMatchAt (prev : Option Char) (s : List Char) : Bool :=
  pascalWords.any (fun w =>
    prevNotWord prev && listStartsWithCI w.data s && nextNotWord (s.drop w.data.length)) ||
  lowerKeywords.any (fun w =>
    prevNotLetter prev && listStartsWithCI w.data s && nextNotLetter (s.drop w.data.length))

def sensitiveNameSearch (s : String) : Bool :=
  searchBoolAux sensitiveNameMatchAt none s.data

/-- Python `has_sensitive_context(lines, center_idx, window=15)`. -/
def has_sensitive_context (lines : List String) (centerIdx : Nat) : Bool :=
  let start := centerIdx - 15
  let stop := min lines.length (centerIdx + 16)
  sensitiveNameSearch (String.intercalate "\n" ((lines.drop start).take (stop - start)))

/-- Python `_is_commented_out(line, in_block_comment)`. -/
def isCommentedOut (line : String) (inBlockComment : Bool) : Bool × Bool :=
  let stripped := pyStrip line
  if inBlockComment then
    if containsSub "*/" line then (true, false) else (true, true)
  else if listStartsWith "//".data stripped.data then (true, false)
  else if listStartsWith "/*".data stripped.data then
    if containsSub "*/" line then (true, false) else (true, true)
  else if containsSub "/*" stripped && !containsSub "*/" stripped then (false, true)
  else (false, false)

/-- The per-line skip decisions of one pass over the file (the block
comment state threads line to line and is the same for every pattern). -/
def commentSkipFlags : Bool → List String → List Bool
  | _, [] => []
  | inB, l :: ls =>
    let r := isCommentedOut l inB
    r.1 :: commentSkipFlags r.2 ls

end ZA.Apis

namespace ZA

/-- The finding dict built by the scanners' `make_finding` (the module
global id counter is omitted: ids are minted in list order and no claim
mentions them). -/
structure Finding where
  category : String
  severity : String
  confidence : String
  detail : String
  symbol : String
  file : String
  line : Nat
  evidenceSource : String
deriving Repr, DecidableEq

end ZA

namespace ZA.Apis

open ZA

/-- Inner line loop of `scan_file_patterns` for one pattern. -/
def scanPatAux (p : ApiPattern) (path : String) (allLines : List String) :
    Nat → Bool → List String → List Finding
  | _, _, [] => []
  | lineno, inB, line :: rest =>
    let r := isCommentedOut line inB
    if r.1 then scanPatAux p path allLines (lineno + 1) r.2 rest
    else if !apiSearch p line then scanPatAux p path allLines (lineno + 1) r.2 rest
    else
      { category := p.category, severity := p.severity,
        confidence := if has_sensitive_context allLines (lineno - 1) then "likely" else "needs_review",
        detail := p.detail, symbol := "", file := path, line := lineno,
        evidenceSource := "source_grep" } ::
      scanPatAux p path allLines (lineno + 1) r.2 rest

/-- Python `scan_file_patterns(path, source)`: outer loop over the pattern table,
inner loop over the lines with the block-comment state reset per pattern. -/
def scan_file_patterns (path : String) (source : String) : List Finding :=
  let lines := pySplitLines source
  (apiPatterns.map (fun p => scanPatAux p path lines 1 false lines)).flatten

end ZA.Apis

namespace ZA.Mir

/-!
Embedding: `tools/scripts/check_mir_patterns.py` — drop-without-StorageDead detector

`detect_drop_before_storagedead` and the helpers it uses.  The Python set
`dropped - storage_dead` is modelled as the first-occurrence deduplicated
drop list filtered by StorageDead membership (set iteration order is
unspecified in Python; only the multiset of findings is claimed).
-/

open ZA

/-- Python `SENSITIVE_LOCAL_RE` keywords. -/
def mirKeywords : List String :=
  ["key", "secret", "password", "token", "nonce", "seed", "priv", "master",
   "credential"]

/-- Anchored match of `SENSITIVE_LOCAL_RE`:
`(?i)(?<![a-zA-Z])(kw1|…)(?![a-zA-Z])`. -/
def sensitiveLocalMatchAt (prev : Option Char) (s : List Char) : Bool :=
  mirKeywords.any (fun w =>
    prevNotLetter prev && listStartsWithCI w.data s && nextNotLetter (s.drop w.data.length))

/-- Python `SENSITIVE_LOCAL_RE.search(varname)`. -/
def sensitiveLocalSearch (s : String) : Bool :=
  searchBoolAux sensitiveLocalMatchAt none s.data

/-- Anchored match of `\bdrop\(_(\d+)\)`, capturing the slot `_N`. -/
def dropMatchAt (prev : Option Char) (s : List Char) : Option (String × Char × List Char) :=
  if !prevNotWord prev then none
  else
    match mLit "drop(_".data s with
    | none => none
    | some r1 =>
      match mDigits1 r1 with
      | none => none
      | some (d, r2) =>
        match mLit ")".data r2 with
        | none => none
        | some r3 => some (String.mk ('_' :: d), ')', r3)

/-- The slots of all `drop(_N)` occurrences on one line (`finditer`). -/
def dropSlots (line : String) : List String := finditer dropMatchAt line

/-- Anchored match of `StorageDead\(_(\d+)\)`. -/
def storageDeadMatchAt (_prev : Option Char) (s : List Char) :
    Option (String × Char × List Char) :=
  match mLit "StorageDead(_".data s with
  | none => none
  | some r1 =>
    match mDigits1 r1 with
    | none => none
    | some (d, r2) =>
      match mLit ")".data r2 with
      | none => none
      | some r3 => some (String.mk ('_' :: d), ')', r3)

def storageDeadSlots (line : String) : List String := finditer storageDeadMatchAt line

/-- Python `re.search(r"\breturn\b", line)`. -/
def returnSearch (line : String) : Bool :=
  searchBool (fun prev s =>
    prevNotWord prev &&
    match mLit "return".data s with
    | some rest => nextNotWord rest
    | none => false) line

/-- Anchored match of `debug\s+(\w+)\s*=>\s*(_\d+)`. -/
def debugMatchAt (_prev : Option Char) (s : List Char) : Option (String × String) :=
  match mLit "debug".data s with
  | none => none
  | some r1 =>
    match mWs1 r1 with
    | none => none
    | some r2 =>
      match mWord1 r2 with
      | none => none
      | some (w, r3) =>
        match mLit "=>".data (r3.dropWhile isPySpace) with
        | none => none
        | some r4 =>
          match mLit "_".data (r4.dropWhile isPySpace) with
          | none => none
          | some r5 =>
            match mDigits1 r5 with
            | none => none
            | some (d, _) => some (String.mk w, String.mk ('_' :: d))

/-- Python `local_names_from_debug_info`: slot → varname, later lines overwrite. -/
def local_names_from_debug_info (fnLines : List String) : List (String × String) :=
  fnLines.foldl (fun m line =>
    match searchCap debugMatchAt line with
    | some (varname, slot) => aset m slot varname
    | none => m) []

/-- Python `is_sensitive_local(slot, debug_map)` with the sensitivity predicate
abstracting `sensitive_re.search` (`sensitiveLocalSearch` is the default). -/
def is_sensitive_local (slot : String) (debugMap : List (String × String))
    (sens : String → Bool) : Bool :=
  sens ((alookup debugMap slot).getD "")

/-- The slots of `dropped - storage_dead` that are sensitive, in first-drop
order. -/
def qualifyingSlots (fnLines : List String) (debugMap : List (String × String))
    (sens : String → Bool) : List String :=
  let dropped := dedupKeep (fnLines.map dropSlots).flatten
  let dead := (fnLines.map storageDeadSlots).flatten
  (dropped.filter (fun s => !dead.contains s)).filter
    (fun s => is_sensitive_local s debugMap sens)

/-- The finding built for one qualifying slot. -/
def dropFinding (fnName : String) (fnStart : Nat) (debugMap : List (String × String))
    (mirFile : String) (hasReturn : Bool) (slot : String) : Finding :=
  if hasReturn then
    { category := "NOT_ON_ALL_PATHS", severity := "high", confidence := "likely",
      detail := "Secret local " ++ slot ++ " (" ++ pyRepr ((alookup debugMap slot).getD "?") ++
        ") is dropped but not StorageDead on explicit return path(s) in " ++ pyRepr fnName,
      symbol := (alookup debugMap slot).getD slot, file := mirFile, line := fnStart,
      evidenceSource := "mir_text" }
  else
    { category := "MISSING_SOURCE_ZEROIZE", severity := "medium", confidence := "likely",
      detail := "Secret local " ++ slot ++ " (" ++ pyRepr ((alookup debugMap slot).getD "?") ++
        ") is dropped without StorageDead in " ++ pyRepr fnName ++
        " — verify zeroize call in drop glue",
      symbol := (alookup debugMap slot).getD slot, file := mirFile, line := fnStart,
      evidenceSource := "mir_text" }

/-- Python `detect_drop_before_storagedead`. -/
def detect_drop_before_storagedead (fnName : String) (fnLines : List String)
    (fnStart : Nat) (debugMap : List (String × String)) (mirFile : String)
    (sens : String → Bool) : List Finding :=
  let hasReturn := fnLines.any returnSearch
  (qualifyingSlots fnLines debugMap sens).map
    (dropFinding fnName fnStart debugMap mirFile hasReturn)

end ZA.Mir

namespace ZA.Asm

/-!
Embedding: `tools/scripts/check_rust_asm.py` and `check_rust_asm_aarch64.py`

Architecture detection, the shared drop-glue check, the AArch64 backend,
and the per-function dispatch/deduplication loop of `main` (modelled from
the demangled text onwards; `demangle_symbols` is the identity on text
containing no `_ZN…E` mangled symbols, which is the case for all inputs
used in the theorems).
-/

open ZA

/-- Anchored match of `%r(?:sp|bp|ax|bx|cx|dx|si|di)\b`. -/
def x86RegMatchAt (_prev : Option Char) (s : List Char) : Bool :=
  match mLit "%r".data s with
  | none => false
  | some r1 =>
    ["sp", "bp", "ax", "bx", "cx", "dx", "si", "di"].any (fun w =>
      match mLit w.data r1 with
      | some r2 => nextNotWord r2
      | none => false)

/-- Anchored match of `stp\s+x29|str\s+xzr|stp\s+xzr|movi\s+v\d+\.\w+`. -/
def a64SyntaxMatchAt (_prev : Option Char) (s : List Char) : Bool :=
  (match mLit "stp".data s with
   | some r1 => (mWs1 r1).elim false (fun r2 =>
       listStartsWith "x29".data r2 || listStartsWith "xzr".data r2)
   | none => false) ||
  (match mLit "str".data s with
   | some r1 => (mWs1 r1).elim false (fun r2 => listStartsWith "xzr".data r2)
   | none => false) ||
  (match mLit "movi".data s with
   | some r1 =>
     (mWs1 r1).elim false (fun r2 =>
       match mLit "v".data r2 with
       | some r3 =>
         match mDigits1 r3 with
         | some (_, r4) =>
           match mLit ".".data r4 with
           | some r5 => (mWord1 r5).isSome
           | none => false
         | none => false
       | none => false)
   | none => false)

/-- Anchored match of `\b(?:x1[0-9]|x2[0-9]|x[0-9]),` (ordered
alternation). -/
def bareXRegMatchAt (prev : Option Char) (s : List Char) : Bool :=
  prevNotWord prev &&
  ((match mLit "x1".data s with
    | some (d :: r) => isDigitCh d && listStartsWith ",".data r
    | _ => false) ||
   (match mLit "x2".data s with
    | some (d :: r) => isDigitCh d && listStartsWith ",".data r
    | _ => false) ||
   (match mLit "x".data s with
    | some (d :: r) => isDigitCh d && listStartsWith ",".data r
    | _ => false))

/-- Python `detect_architecture(asm_text)`. -/
def detect_architecture (asmText : String) : String :=
  if searchBool x86RegMatchAt asmText then "x86_64"
  else if searchBool a64SyntaxMatchAt asmText then "aarch64"
  else if searchBool bareXRegMatchAt asmText then "aarch64"
  else "unknown"

/-- AAPCS64 caller-saved registers (`AARCH64_CALLER_SAVED`). -/
def callerSaved : List String :=
  ["x0", "x1", "x2", "x3", "x4", "x5", "x6", "x7", "x8", "x9", "x10", "x11",
   "x12", "x13", "x14", "x15", "x16", "x17",
   "v0", "v1", "v2", "v3", "v4", "v5", "v6", "v7", "v16", "v17", "v18",
   "v19", "v20", "v21", "v22", "v23", "v24", "v25", "v26", "v27", "v28",
   "v29", "v30", "v31"]

/-- AAPCS64 callee-saved registers (`AARCH64_CALLEE_SAVED`). -/
def calleeSaved : List String :=
  ["x19", "x20", "x21", "x22", "x23", "x24", "x25", "x26", "x27", "x28",
   "x29", "x30", "v8", "v9", "v10", "v11", "v12", "v13", "v14", "v15"]

/-- Consume the optional offset-and-bracket tail
`(?:,\s*#-?\d+)?\]` shared by the `[sp…]` patterns. -/
def mSpTail (s : List Char) : Bool :=
  (match mLit ",".data s with
   | some r1 =>
     let r2 := r1.dropWhile isPySpace
     match mLit "#".data r2 with
     | some r3 =>
       let r4 := match mLit "-".data r3 with | some r => r | none => r3
       match mDigits1 r4 with
       | some (_, r5) => listStartsWith "]".data r5
       | none => false
     | none => false
   | none => false) ||
  listStartsWith "]".data s

/-- Anchored match of `stp\s+x29,\s+x30,\s+\[sp,\s+#-(\d+)\]!`
(`RE_A64_FRAME_STP`), capturing the frame size. -/
def frameStpMatchAt (_prev : Option Char) (s : List Char) : Option Nat :=
  match mLit "stp".data s with
  | none => none
  | some r1 =>
    match mWs1 r1 with
    | none => none
    | some r2 =>
      match mLit "x29,".data r2 with
      | none => none
      | some r3 =>
        match mWs1 r3 with
        | none => none
        | some r4 =>
          match mLit "x30,".data r4 with
          | none => none
          | some r5 =>
            match mWs1 r5 with
            | none => none
            | some r6 =>
              match mLit "[sp,".data r6 with
              | none => none
              | some r7 =>
                match mWs1 r7 with
                | none => none
                | some r8 =>
                  match mLit "#-".data r8 with
                  | none => none
                  | some r9 =>
                    match mDigits1 r9 with
                    | none => none
                    | some (d, r10) =>
                      if listStartsWith "]!".data r10 then some (digitsToNat d) else none

/-- Anchored match of `sub\s+sp,\s+sp,\s+#(\d+)` (`RE_A64_FRAME_SUB`). -/
def frameSubMatchAt (_prev : Option Char) (s : List Char) : Option Nat :=
  match mLit "sub".data s with
  | none => none
  | some r1 =>
    match mWs1 r1 with
    | none => none
    | some r2 =>
      match mLit "sp,".data r2 with
      | none => none
      | some r3 =>
        match mWs1 r3 with
        | none => none
        | some r4 =>
          match mLit "sp,".data r4 with
          | none => none
          | some r5 =>
            match mWs1 r5 with
            | none => none
            | some r6 =>
              match mLit "#".data r6 with
              | none => none
              | some r7 =>
                match mDigits1 r7 with
                | none => none
                | some (d, _) => some (digitsToNat d)

/-- Anchored match of `\bstr\s+[xw]zr,\s+\[sp(?:,\s*#-?\d+)?\]`
(`RE_A64_STR_XZR`). -/
def strXzrMatchAt (prev : Option Char) (s : List Char) : Bool :=
  prevNotWord prev &&
  match mLit "str".data s with
  | none => false
  | some r1 =>
    match mWs1 r1 with
    | none => false
    | some r2 =>
      match r2 with
      | c :: r3 =>
        (c = 'x' || c = 'w') &&
        (match mLit "zr,".data r3 with
         | none => false
         | some r4 =>
           match mWs1 r4 with
           | none => false
           | some r5 =>
             match mLit "[sp".data r5 with
             | none => false
             | some r6 => mSpTail r6)
      | [] => false

/-- Anchored match of `\bstp\s+[xw]zr,\s+[xw]zr,\s+\[sp(?:,\s*#-?\d+)?\]`
(`RE_A64_STP_XZR`). -/
def stpXzrMatchAt (prev : Option Char) (s : List Char) : Bool :=
  prevNotWord prev &&
  match mLit "stp".data s with
  | none => false
  | some r1 =>
    match mWs1 r1 with
    | none => false
    | some r2 =>
      match r2 with
      | c :: r3 =>
        (c = 'x' || c = 'w') &&
        (match mLit "zr,".data r3 with
         | none => false
         | some r4 =>
           match mWs1 r4 with
           | none => false
           | some r5 =>
             match r5 with
             | c2 :: r6 =>
               (c2 = 'x' || c2 = 'w') &&
               (match mLit "zr,".data r6 with
                | none => false
                | some r7 =>
                  match mWs1 r7 with
                  | none => false
                  | some r8 =>
                    match mLit "[sp".data r8 with
                    | none => false
                    | some r9 => mSpTail r9)
             | [] => false)
      | [] => false

/-- Anchored match of `\bmovi\s+v\d+\.\w+,\s+#0\b` (`RE_A64_MOVI_ZERO`). -/
def moviZeroMatchAt (prev : Option Char) (s : List Char) : Bool :=
  prevNotWord prev &&
  match mLit "movi".data s with
  | none => false
  | some r1 =>
    match mWs1 r1 with
    | none => false
    | some r2 =>
      match mLit "v".data r2 with
      | none => false
      | some r3 =>
        match mDigits1 r3 with
        | none => false
        | some (_, r4) =>
          match mLit ".".data r4 with
          | none => false
          | some r5 =>
            match mWord1 r5 with
            | none => false
            | some (_, r6) =>
              match mLit ",".data r6 with
              | none => false
              | some r7 =>
                match mWs1 r7 with
                | none => false
                | some r8 =>
                  match mLit "#0".data r8 with
                  | none => false
                  | some r9 => nextNotWord r9

/-- Anchored match of `\bbl\s+.*(?:memset|volatile_set_memory|zeroize)`
(`RE_A64_MEMSET`): `bl`, one whitespace, then a wipe keyword anywhere in
the rest of the line (`.*` is line-local: `func_lines` hold single lines). -/
def a64MemsetMatchAt (prev : Option Char) (s : List Char) : Bool :=
  prevNotWord prev &&
  match mLit "bl".data s with
  | none => false
  | some (c :: r1) =>
    isPySpace c &&
    (containsPat "memset".data r1 || containsPat "volatile_set_memory".data r1 ||
     containsPat "zeroize".data r1)
  | some [] => false

/-- Anchored match of `\bret\b` (`RE_A64_RET`). -/
def retMatchAt (prev : Option Char) (s : List Char) : Bool :=
  prevNotWord prev &&
  match mLit "ret".data s with
  | some rest => nextNotWord rest
  | none => false

/-- Anchored match of the spill register
`(x\d+|v\d+|q\d+)` followed by `,\s+\[sp(?:,\s*#-?\d+)?\]`. -/
def spillRegTail (r2 : List Char) : Option String :=
  match r2 with
  | c :: r3 =>
    if c = 'x' || c = 'v' || c = 'q' then
      match mDigits1 r3 with
      | none => none
      | some (d, r4) =>
        match mLit ",".data r4 with
        | none => none
        | some r5 =>
          match mWs1 r5 with
          | none => none
          | some r6 =>
            match mLit "[sp".data r6 with
            | none => none
            | some r7 => if mSpTail r7 then some (String.mk (c :: d)) else none
    else none
  | [] => none

/-- Anchored match of `\bstr\s+(x\d+|v\d+|q\d+),\s+\[sp(?:,\s*#-?\d+)?\]`
(`RE_A64_STR_SPILL`), capturing the register. -/
def strSpillMatchAt (prev : Option Char) (s : List Char) : Option String :=
  if !prevNotWord prev then none
  else
    match mLit "str".data s with
    | none => none
    | some r1 =>
      match mWs1 r1 with
      | none => none
      | some r2 => spillRegTail r2

/-- Anchored match of
`\bstp\s+((?:x|q)\d+),\s+((?:x|q)\d+),\s+\[sp(?:,\s*#-?\d+)?\]`
(`RE_A64_STP_SPILL`), capturing both registers. -/
def stpSpillMatchAt (prev : Option Char) (s : List Char) : Option (String × String) :=
  if !prevNotWord prev then none
  else
    match mLit "stp".data s with
    | none => none
    | some r1 =>
      match mWs1 r1 with
      | none => none
      | some r2 =>
        match r2 with
        | c :: r3 =>
          if c = 'x' || c = 'q' then
            match mDigits1 r3 with
            | none => none
            | some (d, r4) =>
              match mLit ",".data r4 with
              | none => none
              | some r5 =>
                match mWs1 r5 with
                | none => none
                | some r6 =>
                  match r6 with
                  | c2 :: r7 =>
                    if c2 = 'x' || c2 = 'q' then
                      match mDigits1 r7 with
                      | none => none
                      | some (d2, r8) =>
                        match mLit ",".data r8 with
                        | none => none
                        | some r9 =>
                          match mWs1 r9 with
                          | none => none
                          | some r10 =>
                            match mLit "[sp".data r10 with
                            | none => none
                            | some r11 =>
                              if mSpTail r11 then
                                some (String.mk (c :: d), String.mk (c2 :: d2))
                              else none
                    else none
                  | [] => none
          else none
        | [] => none

end ZA.Asm

namespace ZA.Asm

open ZA

/-- A finding dict as built inside the backends, before ids are assigned
(`category`, `severity`, `symbol`, `detail`, `evidence_detail`). -/
structure RawFinding where
  category : String
  severity : String
  symbol : String
  detail : String
  evidenceDetail : String
deriving Repr, DecidableEq

/-- Loop state of `check_stack_retention`. -/
structure RetState where
  frameAllocLine : Option (Nat × String)
  frameSize : Nat
  hasZeroStore : Bool
  retLine : Option (Nat × String)

/-- One iteration of the `check_stack_retention` line loop. -/
def retStep (st : RetState) (ln : Nat × String) : RetState :=
  let line := ln.2
  let st :=
    match searchCap (fun p s => (frameStpMatchAt p s).map (fun n => n)) line with
    | some n =>
      { st with
        frameAllocLine := if st.frameAllocLine.isSome then st.frameAllocLine
                          else some (ln.1, pyStrip line),
        frameSize := st.frameSize + n }
    | none => st
  let st :=
    match searchCap frameSubMatchAt line with
    | some n =>
      { st with
        frameAllocLine := if st.frameAllocLine.isSome then st.frameAllocLine
                          else some (ln.1, pyStrip line),
        frameSize := st.frameSize + n }
    | none => st
  let st :=
    if searchBool strXzrMatchAt line || searchBool stpXzrMatchAt line then
      { st with hasZeroStore := true }
    else st
  let st :=
    if searchBool moviZeroMatchAt line || searchBool a64MemsetMatchAt line then
      { st with hasZeroStore := true }
    else st
  if searchBool retMatchAt line then { st with retLine := some (ln.1, pyStrip line) }
  else st

/-- The finding built from the final loop state of
`check_stack_retention`. -/
def mkStackFinding (funcName : String) (st : RetState) : Option RawFinding :=
  match st.frameAllocLine, st.retLine with
  | some (allocLineno, allocText), some (retLineno, _) =>
    if !st.hasZeroStore && st.frameSize > 0 then
      some
        { category := "STACK_RETENTION", severity := "high", symbol := funcName,
          detail := "[EXPERIMENTAL] AArch64 stack frame of " ++ toString st.frameSize ++
            " bytes allocated at line " ++ toString allocLineno ++ " (" ++
            pyRepr allocText ++ ") but no zero-store (str xzr / stp xzr,xzr / movi+stp / zeroize call) found before return at line " ++
            toString retLineno,
          evidenceDetail := allocText ++ " at line " ++ toString allocLineno ++
            "; no str/stp xzr or zeroize call before ret at line " ++ toString retLineno }
    else none
  | _, _ => none

/-- Python `check_stack_retention(func_name, func_lines)` (AArch64). -/
def check_stack_retention (funcName : String) (funcLines : List (Nat × String)) :
    Option RawFinding :=
  mkStackFinding funcName (funcLines.foldl retStep ⟨none, 0, false, none⟩)

/-- Python `re.match(r"^q\d+$", reg)` with `int(...) in range(8, 16)`. -/
def qPartialCalleeSaved (reg : String) : Bool :=
  match reg.data with
  | 'q' :: ds => !ds.isEmpty && ds.all isDigitCh &&
      (8 ≤ digitsToNat ds && digitsToNat ds ≤ 15)
  | _ => false

/-- Python `re.match(r"^q\d+$", reg)` on a spill capture. -/
def isQReg (reg : String) : Bool :=
  match reg.data with
  | 'q' :: ds => !ds.isEmpty && ds.all isDigitCh
  | _ => false

/-- The spill tuples `(lineno, reg, line.strip())` collected by
`check_register_spill`. -/
def collectSpills (funcLines : List (Nat × String)) : List (Nat × String × String) :=
  funcLines.flatMap (fun ln =>
    (match searchCap strSpillMatchAt ln.2 with
     | some reg =>
       if calleeSaved.contains reg || callerSaved.contains reg || isQReg reg then
         [(ln.1, reg, pyStrip ln.2)]
       else []
     | none => []) ++
    (match searchCap stpSpillMatchAt ln.2 with
     | some (r1, r2) =>
       ([r1, r2].filter (fun reg =>
         !(reg = "xzr") &&
         (calleeSaved.contains reg || callerSaved.contains reg || isQReg reg))).map
         (fun reg => (ln.1, reg, pyStrip ln.2))
     | none => []))

/-- The classification/dedup loop at the end of `check_register_spill`. -/
def spillFindingsAux (funcName : String) :
    List String → List (Nat × String × String) → List RawFinding
  | _, [] => []
  | seen, (lineno, reg, lineText) :: rest =>
    if seen.contains reg then spillFindingsAux funcName seen rest
    else
      let cls : String × String :=
        if calleeSaved.contains reg then ("callee-saved", "high")
        else if qPartialCalleeSaved reg then ("callee-saved (partial)", "high")
        else ("caller-saved", "medium")
      { category := "REGISTER_SPILL", severity := cls.2, symbol := funcName,
        detail := "[EXPERIMENTAL] AArch64 register " ++ reg ++ " (" ++ cls.1 ++
          ") spilled to stack at line " ++ toString lineno ++ " in function " ++
          pyRepr funcName ++ " — may expose secret value",
        evidenceDetail := lineText ++ " at line " ++ toString lineno } ::
      spillFindingsAux funcName (reg :: seen) rest

/-- Python `check_register_spill(func_name, func_lines)` (AArch64). -/
def check_register_spill (funcName : String) (funcLines : List (Nat × String)) :
    List RawFinding :=
  spillFindingsAux funcName [] (collectSpills funcLines)

/-- Python `analyze_function(func_name, func_lines)` of the AArch64 backend. -/
def analyze_function_aarch64 (funcName : String) (funcLines : List (Nat × String)) :
    List RawFinding :=
  (check_stack_retention funcName funcLines).toList ++
  check_register_spill funcName funcLines

/-- Anchored match of `(?:call|bl)\s+.*(?:memset|volatile_set_memory|zeroize)`
(`RE_WIPE_CALL`; no word boundary in the source pattern). -/
def wipeCallMatchAt (_prev : Option Char) (s : List Char) : Bool :=
  let tailKw : List Char → Bool := fun r =>
    match r with
    | c :: r1 =>
      isPySpace c &&
      (containsPat "memset".data r1 || containsPat "volatile_set_memory".data r1 ||
       containsPat "zeroize".data r1)
    | [] => false
  (match mLit "call".data s with
   | some r => tailKw r
   | none => false) ||
  (match mLit "bl".data s with
   | some r => tailKw r
   | none => false)

/-- Python `check_drop_glue(func_name, func_lines)` (shared by both backends). -/
def check_drop_glue (funcName : String) (funcLines : List (Nat × String)) :
    Option RawFinding :=
  if !containsSub "drop_in_place" (lowerStr funcName) then none
  else
    let hasZeroize := funcLines.any (fun ln =>
      searchBool wipeCallMatchAt ln.2 || containsSub "zeroize" (lowerStr ln.2))
    if !hasZeroize then
      some
        { category := "MISSING_SOURCE_ZEROIZE", severity := "medium", symbol := funcName,
          detail := "drop_in_place for " ++ pyRepr funcName ++
            " has no zeroize/volatile-store calls — sensitive type may not be wiped on drop",
          evidenceDetail := "No zeroize call found in " ++ funcName ++ " drop glue (" ++
            toString funcLines.length ++ " lines)" }
    else none

/-- Python `is_sensitive_function(func_name, sensitive_names)`. -/
def is_sensitive_function (funcName : String) (sensitiveNames : List String) : Bool :=
  sensitiveNames.any (fun n => containsSub (lowerStr n) (lowerStr funcName))

/-- Python `re.sub(r"::h[0-9a-f]{16}$", "", func_name)`: strip the trailing
monomorphization hash when present. -/
def stripMonoHash (s : String) : String :=
  let d := s.data
  if d.length < 19 then s
  else
    let tail19 := d.drop (d.length - 19)
    let isHex : Char → Bool := fun c => c.isDigit || ('a' ≤ c && c ≤ 'f')
    match tail19 with
    | ':' :: ':' :: 'h' :: hex =>
      if hex.length = 16 && hex.all isHex then String.mk (d.take (d.length - 19)) else s
    | _ => s

/-- Python `re.sub(r"::<[^>]+>", "", base_name)`: remove every `::<…>` block,
scanning left to right and resuming after each removal. -/
def stripTypeParamsAux : Nat → List Char → List Char
  | 0, s => s
  | _ + 1, [] => []
  | fuel + 1, s@(c :: rest) =>
    if listStartsWith "::<".data s then
      let inner := (s.drop 3).takeWhile (fun ch => !(ch = '>'))
      let after := (s.drop 3).drop inner.length
      match inner, after with
      | _ :: _, '>' :: r2 => stripTypeParamsAux fuel r2
      | _, _ => c :: stripTypeParamsAux fuel rest
    else c :: stripTypeParamsAux fuel rest

def stripTypeParams (s : String) : String :=
  String.mk (stripTypeParamsAux (s.data.length + 1) s.data)

/-- The dedup key of `main`: `(category, base)` in general and
`(category, base, evidence_detail)` for `REGISTER_SPILL`. -/
def dedupKey (f : RawFinding) (baseName : String) : List String :=
  if f.category = "REGISTER_SPILL" then [f.category, baseName, f.evidenceDetail]
  else [f.category, baseName]

/-- Key lookup in the `instance_counts` dict. -/
def klookup : List (List String × Nat) → List String → Option Nat
  | [], _ => none
  | (k, v) :: rest, key => if k = key then some v else klookup rest key

def kset : List (List String × Nat) → List String → Nat → List (List String × Nat)
  | [], key, v => [(key, v)]
  | (k, w) :: rest, key, v =>
    if k = key then (key, v) :: rest else (k, w) :: kset rest key v

/-- State of the dedup loop (`seen_findings` keys, `instance_counts`,
`raw_findings` with the stored `_base_name`). -/
structure RecState where
  seen : List (List String)
  counts : List (List String × Nat)
  raw : List (RawFinding × String)

/-- Python `_record(finding, base_name)`. -/
def record (st : RecState) (f : RawFinding) (baseName : String) : RecState :=
  let key := dedupKey f baseName
  let counts := kset st.counts key ((klookup st.counts key).getD 0 + 1)
  if st.seen.contains key then { st with counts := counts }
  else { seen := key :: st.seen, counts := counts, raw := st.raw ++ [(f, baseName)] }

/-- The per-function loop of `main` with the AArch64 backend. -/
def recordFunctions (sensitiveNames : List String) :
    RecState → List (String × List (Nat × String)) → RecState
  | st, [] => st
  | st, (funcName, funcLines) :: rest =>
    if !is_sensitive_function funcName sensitiveNames then
      recordFunctions sensitiveNames st rest
    else
      let baseName := stripTypeParams (stripMonoHash funcName)
      let st := (analyze_function_aarch64 funcName funcLines).foldl
        (fun st f => record st f baseName) st
      let st :=
        match check_drop_glue funcName funcLines with
        | some f => record st f baseName
        | none => st
      recordFunctions sensitiveNames st rest

/-- A finding in the output list of `main` (ids, language and file list
omitted; `evidence[0].detail` is `evidenceDetail`). -/
structure OutFinding where
  category : String
  severity : String
  symbol : String
  detail : String
  evidenceDetail : String
deriving Repr, DecidableEq

/-- The output phase of `main`: instance counts ≥ 2 are appended to the
evidence detail. -/
def outputPhase (st : RecState) : List OutFinding :=
  st.raw.map (fun fb =>
    let key := dedupKey fb.1 fb.2
    let count := (klookup st.counts key).getD 1
    { category := fb.1.category, severity := fb.1.severity, symbol := fb.1.symbol,
      detail := fb.1.detail,
      evidenceDetail :=
        if count > 1 then
          fb.1.evidenceDetail ++ " (seen in " ++ toString count ++ " monomorphized instances)"
        else fb.1.evidenceDetail })

/-- The finding list `main` writes for AArch64 input, given the parsed
per-function line map and the sensitive names. -/
def aarch64MainFindings (functions : List (String × List (Nat × String)))
    (sensitiveNames : List String) : List OutFinding :=
  outputPhase (recordFunctions sensitiveNames ⟨[], [], []⟩ functions)

/-! ### `parse_functions` -/

/-- Greedy-with-backtracking match of `\.type\s+(\S+),\s*@function`
(`RE_FUNC_TYPE`): after `.type` and whitespace the capture is the longest
non-space run that is followed by a comma and then `\s*@function`; the
comma split is searched from the right (greedy `\S+`). -/
def typeDirectiveAt (s : List Char) : Option String :=
  match mLit ".type".data s with
  | none => none
  | some r1 =>
    match mWs1 r1 with
    | none => none
    | some r2 =>
      let run := r2.takeWhile (fun c => !isPySpace c)
      let after := r2.drop run.length
      let rec splitFromRight : List Char → Option String := fun rev => -- rev: reversed prefix candidates
        match rev with
        | [] => none
        | _ :: tl =>
          let len := rev.length
          -- candidate: capture = run.take (len-1), comma at position len-1;
          -- the capture is (\S+) so it must be nonempty (len ≥ 2)
          if 2 ≤ len && run.get? (len - 1) = some ',' &&
             listStartsWith "@function".data
               (((run.drop len) ++ after).dropWhile isPySpace) then
            some (String.mk (run.take (len - 1)))
          else splitFromRight tl
      if run.isEmpty then none else splitFromRight run.reverse

/-- Python `RE_GLOBL`: `\.globl\s+(\S+)`. -/
def globlDirectiveAt (s : List Char) : Option String :=
  match mLit ".globl".data s with
  | none => none
  | some r1 =>
    match mWs1 r1 with
    | none => none
    | some r2 =>
      let run := r2.takeWhile (fun c => !isPySpace c)
      if run.isEmpty then none else some (String.mk run)

/-- Python `re.search` of a directive on one line. -/
def searchDirective (m : List Char → Option String) (line : String) : Option String :=
  searchCapAux (fun _ s => m s) none line.data

/-- Python `RE_LABEL`: `^([A-Za-z_\$][A-Za-z0-9_\$@.]*):` on the stripped line. -/
def labelOf (stripped : String) : Option String :=
  match stripped.data with
  | c :: rest =>
    if c.isAlpha || c = '_' || c = '$' then
      let run := rest.takeWhile (fun ch => ch.isAlpha || ch.isDigit || ch = '_' ||
        ch = '$' || ch = '@' || ch = '.')
      if (rest.drop run.length).head? = some ':' then some (String.mk (c :: run))
      else none
    else none
  | [] => none

/-- Python `RE_INTERNAL_LABEL`: `^\.?L[A-Z_]`. -/
def isInternalLabel (label : String) : Bool :=
  match label.data with
  | '.' :: 'L' :: c :: _ => c.isUpper || c = '_'
  | 'L' :: c :: _ => c.isUpper || c = '_'
  | _ => false

/-- Label-splitting loop of `parse_functions`. -/
def parseFunctionsAux (funcNames : List String) :
    Option (String × List (Nat × String)) → Nat → List String →
    List (String × List (Nat × String))
  | cur, _, [] => cur.toList
  | cur, lineno, line :: rest =>
    match labelOf (pyStrip line) with
    | some label =>
      if isInternalLabel label then
        let cur := cur.map (fun c => (c.1, c.2 ++ [(lineno, line)]))
        parseFunctionsAux funcNames cur (lineno + 1) rest
      else if funcNames.isEmpty || funcNames.contains label then
        (cur.toList) ++
        parseFunctionsAux funcNames (some (label, [(lineno, line)])) (lineno + 1) rest
      else
        let cur := cur.map (fun c => (c.1, c.2 ++ [(lineno, line)]))
        parseFunctionsAux funcNames cur (lineno + 1) rest
    | none =>
      let cur := cur.map (fun c => (c.1, c.2 ++ [(lineno, line)]))
      parseFunctionsAux funcNames cur (lineno + 1) rest

/-- Python `parse_functions(asm_lines)`.  The Python version accumulates into a
dict keyed by function name; labels are unique in assembly output, so the
insertion-ordered section list is the same mapping. -/
def parse_functions (asmLines : List String) : List (String × List (Nat × String)) :=
  let fromTypes := asmLines.filterMap (fun l => searchDirective typeDirectiveAt l)
  let funcNames :=
    if fromTypes.isEmpty then asmLines.filterMap (fun l => searchDirective globlDirectiveAt l)
    else fromTypes
  parseFunctionsAux funcNames none 1 asmLines

/-- One output finding of the unsupported-architecture branch of `main`. -/
structure SkipFinding where
  id : String
  category : String
  severity : String
  confidence : String
  detail : String
  file : String
  line : Nat
deriving Repr, DecidableEq

/-- Outcome of `main` after architecture detection. -/
inductive MainOutcome where
  | dispatchX86
  | dispatchAarch64
  | skipped (exitCode : Nat) (findings : List SkipFinding)
deriving Repr, DecidableEq

/-- The dispatch in `main` (after the input file has been read): the
backends are invoked for known architectures; an unknown architecture
writes a single `ANALYSIS_SKIPPED` finding and returns exit code 0. -/
def check_rust_asm_dispatch (asmText : String) (asmPath : String) : MainOutcome :=
  let arch := detect_architecture asmText
  if arch = "x86_64" then .dispatchX86
  else if arch = "aarch64" then .dispatchAarch64
  else
    .skipped 0
      [{ id := "F-RUST-ASM-SKIP-0001", category := "ANALYSIS_SKIPPED",
         severity := "info", confidence := "confirmed",
         detail := "Unsupported assembly architecture " ++ pyRepr arch ++
           " -- no analysis performed",
         file := asmPath, line := 0 }]

end ZA.Asm

namespace ZA.Ir

/-!
Embedding: `tools/scripts/check_llvm_patterns.py`

The IR helper extractors and `analyze`, with the eight finding sections
kept as separate definitions concatenated in source order.
-/

open ZA

/-- The nine sensitive keywords of `SENSITIVE_SSA_RE` / `find_secret_returns`. -/
def ssaKeywords : List String :=
  ["key", "secret", "password", "token", "nonce", "seed", "priv", "master",
   "credential"]

/-- The six keywords of the `find_arg_load_calls` load pattern. -/
def loadKeywords : List String :=
  ["key", "secret", "password", "token", "nonce", "seed"]

/-- Python `[\w\.\-]` (volatile-store destination name characters). -/
def isTargetChar (c : Char) : Bool := isWordChar c || c = '.' || c = '-'

/-- Anchored match of `\bstore volatile\b` (`count_volatile_stores`),
returning the rest for `finditer`-style counting. -/
def storeVolatileMatchAt (prev : Option Char) (s : List Char) :
    Option (Unit × Char × List Char) :=
  if !prevNotWord prev then none
  else
    match mLit "store volatile".data s with
    | some rest => if nextNotWord rest then some ((), 'e', rest) else none
    | none => none

/-- Python `count_volatile_stores(ir_text)`: `len(re.findall(r"\bstore volatile\b", …))`. -/
def count_volatile_stores (irText : String) : Nat :=
  (finditer storeVolatileMatchAt irText).length

/-- Anchored match of
`\bstore volatile\b[^,]*,\s*(?:ptr|i\d+\*)\s+%([\w\.\-]+)` capturing the
destination name.  `[^,]*` is everything to the first comma (it cannot
cross one, so greedy matching is deterministic). -/
def volStoreTargetMatchAt (prev : Option Char) (s : List Char) :
    Option (String × Char × List Char) :=
  if !prevNotWord prev then none
  else
    match mLit "store volatile".data s with
    | none => none
    | some r1 =>
      if !nextNotWord r1 then none
      else
        let pre := r1.takeWhile (fun c => !(c = ','))
        match r1.drop pre.length with
        | ',' :: r2 =>
          let r3 := r2.dropWhile isPySpace
          let afterTy : Option (List Char) :=
            match mLit "ptr".data r3 with
            | some r4 => some r4
            | none =>
              match mLit "i".data r3 with
              | some r4 =>
                match mDigits1 r4 with
                | some (_, r5) => mLit "*".data r5
                | none => none
              | none => none
          match afterTy with
          | none => none
          | some r6 =>
            match mWs1 r6 with
            | none => none
            | some r7 =>
              match mLit "%".data r7 with
              | none => none
              | some r8 =>
                match r8.takeWhile isTargetChar with
                | [] => none
                | c0 :: cs =>
                  some (String.mk (c0 :: cs), (c0 :: cs).getLastD c0,
                    r8.drop (c0 :: cs).length)
        | _ => none

/-- Python `extract_volatile_stores_by_target(ir_text)`: insertion-ordered count
dict keyed by destination name. -/
def extract_volatile_stores_by_target (irText : String) : List (String × Nat) :=
  (finditer volStoreTargetMatchAt irText).foldl
    (fun m k => aset m k ((alookup m k).getD 0 + 1)) []

/-- Python `extract_volatile_store_targets`: the key set of the count dict. -/
def extract_volatile_store_targets (irText : String) : List String :=
  (extract_volatile_stores_by_target irText).map Prod.fst

/-- Anchored match of `%(\w+)\s*=\s*alloca\s+\[(\d+)\s*x\s*i8\]`
(`extract_allocas`). -/
def allocaMatchAt (_prev : Option Char) (s : List Char) :
    Option ((String × Nat) × Char × List Char) :=
  match mLit "%".data s with
  | none => none
  | some r1 =>
    match mWord1 r1 with
    | none => none
    | some (name, r2) =>
      match mLit "=".data (r2.dropWhile isPySpace) with
      | none => none
      | some r3 =>
        match mLit "alloca".data (r3.dropWhile isPySpace) with
        | none => none
        | some r4 =>
          match mWs1 r4 with
          | none => none
          | some r5 =>
            match mLit "[".data r5 with
            | none => none
            | some r6 =>
              match mDigits1 r6 with
              | none => none
              | some (d, r7) =>
                match mLit "x".data (r7.dropWhile isPySpace) with
                | none => none
                | some r8 =>
                  match mLit "i8]".data (r8.dropWhile isPySpace) with
                  | none => none
                  | some r9 =>
                    some ((String.mk name, digitsToNat d), ']', r9)

/-- Python `extract_allocas(ir_text)`: `{name: size}` with later matches
overwriting earlier ones. -/
def extract_allocas (irText : String) : List (String × Nat) :=
  (finditer allocaMatchAt irText).foldl (fun m kv => aset m kv.1 kv.2) []

/-- Anchored match of
`call void @llvm\.lifetime\.end[^(]*\([^,]+,\s*(?:ptr|i8\*)\s+%(\w+)`
(`extract_lifetime_ends`). -/
def lifetimeEndMatchAt (_prev : Option Char) (s : List Char) :
    Option (String × Char × List Char) :=
  match mLit "call void @llvm.lifetime.end".data s with
  | none => none
  | some r1 =>
    let pre := r1.takeWhile (fun c => !(c = '('))
    match r1.drop pre.length with
    | '(' :: r2 =>
      let arg1 := r2.takeWhile (fun c => !(c = ','))
      match arg1, r2.drop arg1.length with
      | _ :: _, ',' :: r3 =>
        let r4 := r3.dropWhile isPySpace
        let afterTy : Option (List Char) :=
          match mLit "ptr".data r4 with
          | some r5 => some r5
          | none => mLit "i8*".data r4
        match afterTy with
        | none => none
        | some r5 =>
          match mWs1 r5 with
          | none => none
          | some r6 =>
            match mLit "%".data r6 with
            | none => none
            | some r7 =>
              match mWord1 r7 with
              | none => none
              | some (name, r8) => some (String.mk name, name.getLastD '%', r8)
      | _, _ => none
    | _ => none

/-- Python `extract_lifetime_ends(ir_text)` as a first-occurrence list (Python
builds a set; only membership is consumed). -/
def extract_lifetime_ends (irText : String) : List String :=
  dedupKeep (finditer lifetimeEndMatchAt irText)

/-- Python `re.search(r"i1\s+true", line)`. -/
def i1TrueSearch (line : String) : Bool :=
  searchBool (fun _ s =>
    match mLit "i1".data s with
    | some r1 =>
      match mWs1 r1 with
      | some r2 => listStartsWith "true".data r2
      | none => false
    | none => false) line

/-- Python `find_nonvolatile_memsets(ir_text)`: `(lineno, line.strip())` for
non-volatile `@llvm.memset` call lines. -/
def find_nonvolatile_memsets (irText : String) : List (Nat × String) :=
  (pySplitLines irText).enum.filterMap (fun li =>
    let line := li.2
    if !containsSub "call void @llvm.memset." line then none
    else if containsSub "unordered.atomic" line then none
    else if i1TrueSearch line then none
    else some (li.1 + 1, pyStrip line))

/-- Anchored match of
`\bret\s+[^%]*%(\w*(?:key|…|credential)\w*)` (`find_secret_returns`):
after `ret` and one whitespace, skip to the first `%`; the capture is the
maximal word run there and must contain a keyword (case-insensitively,
via the backtracking `\w*(…)\w*`). -/
def retSecretMatchAt (prev : Option Char) (s : List Char) : Option String :=
  if !prevNotWord prev then none
  else
    match mLit "ret".data s with
    | none => none
    | some r1 =>
      match r1 with
      | c :: r2 =>
        if !isPySpace c then none
        else
          let toPercent := r2.takeWhile (fun ch => !(ch = '%'))
          match r2.drop toPercent.length with
          | '%' :: r3 =>
            let run := r3.takeWhile isWordChar
            if containsAnyCI ssaKeywords run then some (String.mk run) else none
          | _ => none
      | [] => none

/-- Python `find_secret_returns(ir_text)`: per line, the first match. -/
def find_secret_returns (irText : String) : List (Nat × String) :=
  (pySplitLines irText).enum.filterMap (fun li =>
    (searchCap retSecretMatchAt li.2).map (fun sym => (li.1 + 1, sym)))

/-- Anchored match of `\bcall\s+\S+\s+@\w+\s*\(([^)]*)\)` capturing the
argument text (`find_secret_aggregate_passes`): `\S+` must be the full
token before the following whitespace, so matching is deterministic. -/
def callArgsMatchAt (prev : Option Char) (s : List Char) : Option String :=
  if !prevNotWord prev then none
  else
    match mLit "call".data s with
    | none => none
    | some r1 =>
      match mWs1 r1 with
      | none => none
      | some r2 =>
        let tok := r2.takeWhile (fun c => !isPySpace c)
        match tok, r2.drop tok.length with
        | _ :: _, r3 =>
          match mWs1 r3 with
          | none => none
          | some r4 =>
            match mLit "@".data r4 with
            | none => none
            | some r5 =>
              match mWord1 r5 with
              | none => none
              | some (_, r6) =>
                match mLit "(".data (r6.dropWhile isPySpace) with
                | none => none
                | some r7 =>
                  let args := r7.takeWhile (fun c => !(c = ')'))
                  if (r7.drop args.length).head? = some ')' then
                    some (String.mk args)
                  else none
        | [], _ => none

/-- Python `re.search(r"%\w*(?:key|…)\w*", args, re.IGNORECASE)`: some `%` is
followed by a word run containing a keyword. -/
def secretPercentSearch (args : String) : Bool :=
  searchBool (fun _ s =>
    match s with
    | '%' :: rest => containsAnyCI ssaKeywords (rest.takeWhile isWordChar)
    | _ => false) args

/-- Python `find_secret_aggregate_passes(ir_text)`: `(lineno, args[:120])`. -/
def find_secret_aggregate_passes (irText : String) : List (Nat × String) :=
  (pySplitLines irText).enum.filterMap (fun li =>
    match searchCap callArgsMatchAt li.2 with
    | none => none
    | some args =>
      if secretPercentSearch args && (containsSub "\x7b" args || containsSub "byval" args) then
        some (li.1 + 1, String.mk (args.data.take 120))
      else none)

/-- Anchored match of `(%\w*(?:key|secret|password|token|nonce|seed)\w*)\s*=\s*load\b`
capturing the `%`-prefixed name (`find_arg_load_calls`). -/
def loadVarMatchAt (_prev : Option Char) (s : List Char) : Option String :=
  match s with
  | '%' :: rest =>
    let run := rest.takeWhile isWordChar
    if !containsAnyCI loadKeywords run then none
    else
      let r2 := (rest.drop run.length).dropWhile isPySpace
      match mLit "=".data r2 with
      | none => none
      | some r3 =>
        match mLit "load".data (r3.dropWhile isPySpace) with
        | some r4 => if nextNotWord r4 then some (String.mk ('%' :: run)) else none
        | none => none
  | _ => none

/-- Anchored match of `call\s+\S+\s+(@\w+)\s*\(([^)]*)\)` capturing callee
and arguments (the `call_re` of `find_arg_load_calls`; no `\b`). -/
def callCalleeArgsMatchAt (_prev : Option Char) (s : List Char) :
    Option (String × String) :=
  match mLit "call".data s with
  | none => none
  | some r1 =>
    match mWs1 r1 with
    | none => none
    | some r2 =>
      let tok := r2.takeWhile (fun c => !isPySpace c)
      match tok, r2.drop tok.length with
      | _ :: _, r3 =>
        match mWs1 r3 with
        | none => none
        | some r4 =>
          match mLit "@".data r4 with
          | none => none
          | some r5 =>
            match mWord1 r5 with
            | none => none
            | some (w, r6) =>
              match mLit "(".data (r6.dropWhile isPySpace) with
              | none => none
              | some r7 =>
                let args := r7.takeWhile (fun c => !(c = ')'))
                if (r7.drop args.length).head? = some ')' then
                  some (String.mk ('@' :: w), String.mk args)
                else none
      | [], _ => none

/-- Python `^define\s`. -/
def isDefineLine (line : String) : Bool :=
  listStartsWith "define".data line.data &&
  ((line.data.drop 6).head?.elim false isPySpace)

/-- The line loop of `find_arg_load_calls`, threading the
`loaded_vars : varname → lineno` dict (reset at `define` lines). -/
def argLoadCallsAux : Nat → List (String × Nat) → List String →
    List (Nat × String × String)
  | _, _, [] => []
  | lineno, loaded, line :: rest =>
    if isDefineLine line then argLoadCallsAux (lineno + 1) [] rest
    else
      match searchCap loadVarMatchAt line with
      | some varname => argLoadCallsAux (lineno + 1) (aset loaded varname lineno) rest
      | none =>
        match searchCap callCalleeArgsMatchAt line with
        | none => argLoadCallsAux (lineno + 1) loaded rest
        | some (callee, args) =>
          if containsSub "zeroize" (lowerStr callee) ||
             containsSub "memset" (lowerStr callee) then
            argLoadCallsAux (lineno + 1) loaded rest
          else
            (loaded.filterMap (fun kv =>
              if containsSub kv.1 args then
                some (lineno, String.mk (kv.1.data.dropWhile (fun c => c = '%')), callee)
              else none)) ++
            argLoadCallsAux (lineno + 1) loaded rest

/-- Python `find_arg_load_calls(ir_text)`: `(lineno, varname, callee)` triples. -/
def find_arg_load_calls (irText : String) : List (Nat × String × String) :=
  argLoadCallsAux 1 [] (pySplitLines irText)

/-- Python `SECRET_ALLOCA_SIZES`. -/
def secretAllocaSizes : List Nat := [16, 24, 32, 48, 64, 96, 128]

/-- Lexicographic string order for Python `sorted` on the count-dict items
(keys are distinct, so tuple comparison never reaches the counts). -/
def strLe (a b : String) : Bool :=
  let rec go : List Char → List Char → Bool
    | [], _ => true
    | _ :: _, [] => false
    | c :: cs, d :: ds => c < d || (c = d && go cs ds)
  go a.data b.data

def insertSorted (x : String × Nat) : List (String × Nat) → List (String × Nat)
  | [] => [x]
  | y :: ys => if strLe x.1 y.1 then x :: y :: ys else y :: insertSorted x ys

/-- Python `sorted(d.items())`. -/
def sortByKey (l : List (String × Nat)) : List (String × Nat) :=
  l.foldr insertSorted []

end ZA.Ir

namespace ZA.Ir

open ZA

/-- The per-level input of `analyze`: optimization level → (file, text).
The CLI always provides O0 and O2; `analyze` itself guards on their
presence. -/
structure LevelToIR where
  o0 : Option (String × String)
  o1 : Option (String × String)
  o2 : Option (String × String)
  o3 : Option (String × String)

def getLevel (m : LevelToIR) (lvl : String) : Option (String × String) :=
  if lvl = "O0" then m.o0
  else if lvl = "O1" then m.o1
  else if lvl = "O2" then m.o2
  else if lvl = "O3" then m.o3
  else none

/-- Python `present = [lvl for lvl in ["O0","O1","O2","O3"] if lvl in level_to_ir]`. -/
def presentLevels (m : LevelToIR) : List String :=
  ["O0", "O1", "O2", "O3"].filter (fun lvl => (getLevel m lvl).isSome)

/-- Section 1: global volatile-store count drop O0 → O2. -/
def sec1 (o0Text o2Text o2File : String) : List Finding :=
  let c0 := count_volatile_stores o0Text
  let c2 := count_volatile_stores o2Text
  if c0 > c2 then
    [{ category := "OPTIMIZED_AWAY_ZEROIZE", severity := "high", confidence := "likely",
       detail := "Volatile store count dropped from " ++ toString c0 ++ " (O0) to " ++
         toString c2 ++ " (O2) — " ++ toString (c0 - c2) ++
         " volatile wipe(s) eliminated by dead-store elimination",
       symbol := "", file := o2File, line := 0, evidenceSource := "llvm_ir" }]
  else []

/-- The per-symbol finding of section 1b. -/
def perSymbolFinding (o2File sym : String) (c0 c2 : Nat) : Finding :=
  { category := "OPTIMIZED_AWAY_ZEROIZE", severity := "high", confidence := "likely",
    detail := "Volatile stores to %" ++ sym ++ " dropped from " ++ toString c0 ++
      " (O0) to " ++ toString c2 ++ " (O2) — symbol-specific wipe elimination detected",
    symbol := sym, file := o2File, line := 0, evidenceSource := "llvm_ir" }

/-- Section 1b: per-target volatile-store drop O0 → O2, in sorted key
order. -/
def sec1b (o0Text o2Text o2File : String) : List Finding :=
  let m2 := extract_volatile_stores_by_target o2Text
  (sortByKey (extract_volatile_stores_by_target o0Text)).filterMap (fun kv =>
    let c2 := (alookup m2 kv.1).getD 0
    if kv.2 > c2 then some (perSymbolFinding o2File kv.1 kv.2 c2) else none)

/-- Section 2: non-volatile `llvm.memset` calls in the O2 IR. -/
def sec2 (o2Text o2File : String) : List Finding :=
  (find_nonvolatile_memsets o2Text).map (fun lt =>
    { category := "OPTIMIZED_AWAY_ZEROIZE", severity := "high", confidence := "likely",
      detail := "Non-volatile @llvm.memset in O2 IR — DSE-eligible, may be removed at higher optimization. Use zeroize crate or volatile memset. IR: " ++
        String.mk (lt.2.data.take 80),
      symbol := "", file := o2File, line := lt.1, evidenceSource := "llvm_ir" })

/-- Section 3: secret-sized alloca with `lifetime.end` but no volatile
store in O2. -/
def sec3 (o2Text o2File : String) : List Finding :=
  let ends := extract_lifetime_ends o2Text
  let volTargets := extract_volatile_store_targets o2Text
  (extract_allocas o2Text).filterMap (fun kv =>
    if !secretAllocaSizes.contains kv.2 then none
    else if !ends.contains kv.1 then none
    else if volTargets.contains kv.1 then none
    else some
      { category := "STACK_RETENTION", severity := "high", confidence := "likely",
        detail := "alloca [" ++ toString kv.2 ++ " x i8] %" ++ kv.1 ++
          " has @llvm.lifetime.end but no volatile store — stack bytes not wiped before slot is freed",
        symbol := kv.1, file := o2File, line := 0, evidenceSource := "llvm_ir" })

/-- Section 4: secret-sized alloca present (and volatile-stored) at O0 but
absent at O2. -/
def sec4 (o0Text o2Text o2File : String) : List Finding :=
  let o2Allocas := extract_allocas o2Text
  let o0VolTargets := extract_volatile_store_targets o0Text
  (extract_allocas o0Text).filterMap (fun kv =>
    if !secretAllocaSizes.contains kv.2 then none
    else if (alookup o2Allocas kv.1).isSome then none
    else if !o0VolTargets.contains kv.1 then none
    else some
      { category := "OPTIMIZED_AWAY_ZEROIZE", severity := "high", confidence := "likely",
        detail := "alloca [" ++ toString kv.2 ++ " x i8] %" ++ kv.1 ++
          " present at O0 but absent at O2 — SROA/mem2reg promoted it to registers; any volatile stores targeting this alloca are now unreachable",
        symbol := kv.1, file := o2File, line := 0, evidenceSource := "llvm_ir" })

/-- Section 5: secret-named SSA value loaded and passed to a call in O2. -/
def sec5 (o2Text o2File : String) : List Finding :=
  (find_arg_load_calls o2Text).map (fun lvc =>
    { category := "REGISTER_SPILL", severity := "medium", confidence := "likely",
      detail := "Secret-named SSA value " ++ sq ++ "%" ++ lvc.2.1 ++ sq ++
        " loaded and passed directly to " ++ pyRepr lvc.2.2 ++
        " — value in argument register may not be cleared after call",
      symbol := lvc.2.1, file := o2File, line := lvc.1, evidenceSource := "llvm_ir" })

/-- Section 6: secret-named SSA value returned directly in O2. -/
def sec6 (o2Text o2File : String) : List Finding :=
  (find_secret_returns o2Text).map (fun lv =>
    { category := "REGISTER_SPILL", severity := "medium", confidence := "likely",
      detail := "Secret-named SSA value " ++ sq ++ "%" ++ lv.2 ++ sq ++
        " is returned directly — value may persist in return registers after function exit",
      symbol := lv.2, file := o2File, line := lv.1, evidenceSource := "llvm_ir" })

/-- Section 7: by-value aggregate call argument containing secret-named
data in O2. -/
def sec7 (o2Text o2File : String) : List Finding :=
  (find_secret_aggregate_passes o2Text).map (fun ls =>
    { category := "SECRET_COPY", severity := "medium", confidence := "likely",
      detail := "Potential by-value aggregate call argument contains secret-named data; copy may escape zeroization tracking. Args: " ++ ls.2,
      symbol := "", file := o2File, line := ls.1, evidenceSource := "llvm_ir" })

/-- Python `reported_by_1b`: the targets whose per-symbol count dropped O0 → O2. -/
def reported_by_1b (o0Text o2Text : String) : List String :=
  let m2 := extract_volatile_stores_by_target o2Text
  (extract_volatile_stores_by_target o0Text).filterMap (fun kv =>
    if kv.2 > (alookup m2 kv.1).getD 0 then some kv.1 else none)

/-- The adjacent level pairs actually compared by section 8: consecutive
present levels, minus the `(O0, O2)` pair (skipped by the explicit
`continue`; when O1 is present that pair is not adjacent at all). -/
def sec8pairs (m : LevelToIR) : List (String × String) :=
  let present := presentLevels m
  (present.zip present.tail).filter (fun p => !(p.1 = "O0" && p.2 = "O2"))

/-- The per-pair finding of section 8. -/
def adjFinding (toFile sym fromLevel toLevel : String) (cFrom cTo : Nat) : Finding :=
  { category := "OPTIMIZED_AWAY_ZEROIZE", severity := "high", confidence := "likely",
    detail := "Volatile stores to %" ++ sym ++ " dropped from " ++ toString cFrom ++
      " (" ++ fromLevel ++ ") to " ++ toString cTo ++ " (" ++ toLevel ++ ")",
    symbol := sym, file := toFile, line := 0, evidenceSource := "llvm_ir" }

/-- Section 8: optional multi-level per-symbol comparison with the two
deduplication rules. -/
def sec8 (m : LevelToIR) (reported : List String) : List Finding :=
  (sec8pairs m).flatMap (fun p =>
    match getLevel m p.1, getLevel m p.2 with
    | some fromIr, some toIr =>
      let toTargets := extract_volatile_stores_by_target toIr.2
      (sortByKey (extract_volatile_stores_by_target fromIr.2)).filterMap (fun kv =>
        if reported.contains kv.1 then none
        else
          let cTo := (alookup toTargets kv.1).getD 0
          if kv.2 > cTo then some (adjFinding toIr.1 kv.1 p.1 p.2 kv.2 cTo) else none)
    | _, _ => [])

/-- Python `analyze(level_to_ir)`: the eight sections in source order, guarded on
the presence of O0 and O2. -/
def analyze (m : LevelToIR) : List Finding :=
  match m.o0, m.o2 with
  | some o0, some o2 =>
    sec1 o0.2 o2.2 o2.1 ++ sec1b o0.2 o2.2 o2.1 ++ sec2 o2.2 o2.1 ++
    sec3 o2.2 o2.1 ++ sec4 o0.2 o2.2 o2.1 ++ sec5 o2.2 o2.1 ++
    sec6 o2.2 o2.1 ++ sec7 o2.2 o2.1 ++ sec8 m (reported_by_1b o0.2 o2.2)
  | _, _ => []

/-- The O2-only sections: the findings that depend only on the O2 text. -/
def o2OnlyFindings (o2Text o2File : String) : List Finding :=
  sec2 o2Text o2File ++ sec3 o2Text o2File ++ sec5 o2Text o2File ++
  sec6 o2Text o2File ++ sec7 o2Text o2File

end ZA.Ir

namespace ZA.Cfg

/-!
Embedding: `tools/analyze_cfg.py` — dominator computation and verdict

`compute_dominators` iterates `while changed` over the node set; the
embedding runs the same pass with explicit fuel (one pass per unit) and a
fuel budget one larger than the total initial dominator-set size, which the
termination lemmas below prove is always enough.  Python iterates the node
set in unspecified hash order; the pass here visits nodes in creation
order (the stable fixpoint reached is what the claims are about).
-/

open ZA

structure CFGNode where
  id : String
  type : String
  lineNum : Option Nat
  statement : Option String
  successors : List String
  predecessors : List String
  hasWipe : Bool
  hasSensitiveVar : Bool
deriving Repr, DecidableEq

structure CFG where
  nodes : List CFGNode
  entry : Option String
  exits : List String

def nodeIds (g : CFG) : List String := g.nodes.map (fun nd => nd.id)

def findNode (g : CFG) (n : String) : Option CFGNode :=
  g.nodes.find? (fun nd => nd.id = n)

/-- Python `self.nodes[node_id].predecessors`. -/
def preds (g : CFG) (n : String) : List String :=
  ((findNode g n).map (fun nd => nd.predecessors)).getD []

def allNodesFinset (g : CFG) : Finset String := (nodeIds g).toFinset

/-- Python `dominators[entry] = {entry}`; every other set starts as the whole
node set. -/
def initDom (g : CFG) (e : String) : String → Finset String :=
  fun n => if n = e then {e} else allNodesFinset g

/-- Python `set.intersection(*pred_doms)` over a nonempty list (intersection is
associative and commutative, so the fold order of the Python call does not
matter). -/
def interList : List (Finset String) → Finset String
  | [] => ∅
  | [x] => x
  | x :: xs => x ∩ interList xs

/-- The update `new_dom` computed for one non-entry node:
`{n}` when the node has no predecessors, else `{n} ∪ ⋂ Dom(p)`. -/
def stepNode (g : CFG) (D : String → Finset String) (n : String) : Finset String :=
  if preds g n = [] then {n}
  else insert n (interList ((preds g n).map D))

def updateD (D : String → Finset String) (n : String) (v : Finset String) :
    String → Finset String :=
  fun x => if x = n then v else D x

/-- One full `for node_id in all_nodes` pass, threading the `changed`
flag (the Python local `new_dom` is inlined as `stepNode`). -/
def domPass (g : CFG) (e : String) :
    List String → (String → Finset String) → Bool → ((String → Finset String) × Bool)
  | [], D, ch => (D, ch)
  | n :: rest, D, ch =>
    if n = e then domPass g e rest D ch
    else if stepNode g D n = D n then domPass g e rest D ch
    else domPass g e rest (updateD D n (stepNode g D n)) true

/-- Total dominator-set size: the termination measure of the `while
changed` loop. -/
def muMeasure (g : CFG) (D : String → Finset String) : Nat :=
  ((nodeIds g).map (fun n => (D n).card)).sum

/-- Python `while changed` with fuel (one unit per pass); the termination lemmas
below show the budget `compute_dominators` passes is always enough. -/
def domIter (g : CFG) (e : String) : Nat → (String → Finset String) → (String → Finset String)
  | 0, D => D
  | fuel + 1, D =>
    if (domPass g e (nodeIds g) D false).2 then
      domIter g e fuel (domPass g e (nodeIds g) D false).1
    else (domPass g e (nodeIds g) D false).1

/-- Python `compute_dominators(self)`; an absent entry returns the empty dict. -/
def compute_dominators (g : CFG) : String → Finset String :=
  match g.entry with
  | none => fun _ => ∅
  | some e => domIter g e (muMeasure g (initDom g e) + 1) (initDom g e)

/-- Python `dominators.get(exit_id, set())`: the dict's keys are exactly the node
ids. -/
def domLookup (g : CFG) (D : String → Finset String) (n : String) : Finset String :=
  if (nodeIds g).contains n then D n else ∅

/-- One entry of `results["problematic_exits"]`. -/
structure ProblematicExit where
  exitNode : String
  line : Option Nat
  dominators : Finset String
deriving DecidableEq

/-- The result dict of `verify_wipe_dominates_exits`. -/
structure VerifyResult where
  wipeDominatesAllExits : Bool
  wipeNodes : List String
  problematicExits : List ProblematicExit
deriving DecidableEq

/-- Python `verify_wipe_dominates_exits(self)`. -/
def verify_wipe_dominates_exits (g : CFG) : VerifyResult :=
  let D := compute_dominators g
  let wipes := (g.nodes.filter (fun nd => nd.hasWipe)).map (fun nd => nd.id)
  let problematic := g.exits.filterMap (fun ex =>
    let exDoms := domLookup g D ex
    if wipes.any (fun w => decide (w ∈ exDoms)) then none
    else some { exitNode := ex,
                line := match findNode g ex with
                        | some nd => nd.lineNum
                        | none => none,
                dominators := exDoms })
  { wipeDominatesAllExits := problematic.isEmpty,
    wipeNodes := wipes,
    problematicExits := problematic }

end ZA.Cfg

namespace ZA.Cfg

/-- Pointwise inclusion of dominator maps. -/
def Dle (D1 D2 : String → Finset String) : Prop := ∀ x, D1 x ⊆ D2 x

/-- The invariant of the chaotic iteration: every pending update can only
shrink the current set. -/
def Inv (g : CFG) (e : String) (D : String → Finset String) : Prop :=
  ∀ n ∈ nodeIds g, n ≠ e → stepNode g D n ⊆ D n

end ZA.Cfg

namespace ZA

/-!
Concrete inputs for the counterexamples and witnesses
-/

/-- Gate counterexample: a `STACK_RETENTION` finding whose string evidence
has leading whitespace and no `asm` marker. -/
def gateCexFinding : Gate.Finding :=
  { category := some (.str "STACK_RETENTION"), confidence := some (.str "confirmed"),
    evidence := some (.str " x"), needsReview := none, compilerEvidence := none,
    rest := [] }

def gateCexReport : Gate.Report := { findings := [gateCexFinding], summary := none, rest := [] }

/-- The gated output of `gateCexReport`: the leading space of the original
evidence is gone, so the new evidence is not the old evidence plus a note. -/
def gateCexOutFinding : Gate.Finding :=
  { category := some (.str "STACK_RETENTION"), confidence := some (.str "confirmed"),
    evidence := some (.str "x [gated: missing assembly evidence]"),
    needsReview := some (.bool true), compilerEvidence := none, rest := [] }

def gateCexOutReport : Gate.Report :=
  { findings := [gateCexOutFinding], summary := none, rest := [] }

/-- A finding carrying the list-of-evidence-records shape every analyzer
emits (`evidence = [{source, detail}]`). -/
def gateListEvFinding : Gate.Finding :=
  { category := some (.str "STACK_RETENTION"), confidence := some (.str "likely"),
    evidence := some (.list [.obj [("source", .str "asm"), ("detail", .str "spill of rax")]]),
    needsReview := none, compilerEvidence := none, rest := [] }

def gateListEvReport : Gate.Report :=
  { findings := [gateListEvFinding], summary := none, rest := [] }

/-- PoC filter witness: an exploitable-category finding whose `confidence`
key says `needs_review` but which carries no `needs_review` boolean and no
confirming evidence signal. -/
def pocWitnessFinding : Poc.Finding :=
  { category := some (.str "STACK_RETENTION"), needsReview := none,
    compilerEvidence := none, evidenceSource := none,
    confidence := some (.str "needs_review"), rest := [] }

/-- Source-scanner counterexample: the only dangerous-API occurrence sits
inside a trailing `//` comment on a line that also holds code. -/
def apiCexSource : String := "foo(); // mem::forget(x)"

def apiCexFinding : Finding :=
  { category := "MISSING_SOURCE_ZEROIZE", severity := "critical",
    confidence := "needs_review",
    detail := "mem::forget() prevents Drop/ZeroizeOnDrop from running — secret never wiped",
    symbol := "", file := "lib.rs", line := 1, evidenceSource := "source_grep" }

/-- A fully commented source for the witness of the amended comment rule. -/
def apiWitnessSource : String := "/*\nmem::forget(x);\n*/\nmem::forget(y);"

/-- MIR scenario D: `drop(_3)` with no `StorageDead(_3)`, a debug-mapped
`secret`, and a `return` terminator. -/
def mirScenarioLines : List String :=
  ["    debug secret => _3;", "    drop(_3);", "    return;"]

def mirScenarioFinding : Finding :=
  { category := "NOT_ON_ALL_PATHS", severity := "high", confidence := "likely",
    detail := "Secret local _3 (" ++ pyRepr "secret" ++
      ") is dropped but not StorageDead on explicit return path(s) in " ++ pyRepr "main",
    symbol := "secret", file := "t.mir", line := 10, evidenceSource := "mir_text" }

/-- AArch64 counterexample input: a sensitive `drop_in_place` function
with an unwiped frame (the text contains no `_ZN…E` symbol, so demangling
is the identity on it). -/
def a64CexLines : List String :=
  [".type drop_in_place_SecretKey,@function",
   "drop_in_place_SecretKey:",
   "\tstp x29, x30, [sp, #-16]!",
   "\tsub sp, sp, #32",
   "\tret"]

def a64CexText : String := String.intercalate "\n" a64CexLines

/-- IR counterexample: identical O0/O2 texts holding one non-volatile
`llvm.memset` call. -/
def irCexText : String :=
  "  call void @llvm.memset.p0.i64(ptr %buf, i8 0, i64 32, i1 false)"

def irCexPair : Ir.LevelToIR :=
  { o0 := some ("a.ll", irCexText), o1 := none, o2 := some ("b.ll", irCexText), o3 := none }

/-- IR witness input: one volatile store to `%key` at O0, none at O2. -/
def irDropPair : Ir.LevelToIR :=
  { o0 := some ("a.ll", "store volatile i8 0, ptr %key"), o1 := none,
    o2 := some ("b.ll", "ret void"), o3 := none }

/-- Multi-level witness input for the adjacent-pair comparison: `%a` drops
O0 → O2 (reported by the direct per-symbol pass), while `%t` gains
volatile stores at O1 and loses them at O2, so only the (O1, O2) adjacent
pair reports `%t`. -/
def irMultiLevel : Ir.LevelToIR :=
  { o0 := some ("a.ll", "store volatile i8 0, ptr %a"),
    o1 := some ("b.ll", "store volatile i32 0, ptr %t\nstore volatile i32 0, ptr %t"),
    o2 := some ("c.ll", "ret void"), o3 := none }

/-- The synthetic if/else CFG of scenario C: the only wipe is on the then
branch; each branch reaches its own exit. -/
def cfgScenario : Cfg.CFG :=
  { nodes :=
      [{ id := "node_0", type := "entry", lineNum := none, statement := none,
         successors := ["node_1"], predecessors := [], hasWipe := false,
         hasSensitiveVar := false },
       { id := "node_1", type := "branch", lineNum := some 2,
         statement := some "if (cond)", successors := ["node_2", "node_3"],
         predecessors := ["node_0"], hasWipe := false, hasSensitiveVar := false },
       { id := "node_2", type := "statement", lineNum := some 3,
         statement := some "zeroize(buf);", successors := ["node_4"],
         predecessors := ["node_1"], hasWipe := true, hasSensitiveVar := false },
       { id := "node_3", type := "statement", lineNum := some 5,
         statement := some "other();", successors := ["node_5"],
         predecessors := ["node_1"], hasWipe := false, hasSensitiveVar := false },
       { id := "node_4", type := "exit", lineNum := some 4, statement := none,
         successors := [], predecessors := ["node_2"], hasWipe := false,
         hasSensitiveVar := false },
       { id := "node_5", type := "exit", lineNum := some 6, statement := none,
         successors := [], predecessors := ["node_3"], hasWipe := false,
         hasSensitiveVar := false }],
    entry := some "node_0",
    exits := ["node_4", "node_5"] }

/-- The dominator set the analyzer reports for the unprotected exit of
`cfgScenario`. -/
def cfgScenarioExitDoms : Finset String :=
  insert "node_5" (insert "node_3" (insert "node_1" {"node_0"}))

/-- A CFG with a predecessor-less non-entry node, as `build_from_source`
produces for a file that opens an `if` and ends before the closing brace
(the merge node `node_2` never receives an edge). -/
def cfgOrphan : Cfg.CFG :=
  { nodes :=
      [{ id := "node_0", type := "entry", lineNum := none, statement := none,
         successors := ["node_1"], predecessors := [], hasWipe := false,
         hasSensitiveVar := false },
       { id := "node_1", type := "branch", lineNum := some 2,
         statement := some "if (x) ", successors := ["node_3"],
         predecessors := ["node_0"], hasWipe := false, hasSensitiveVar := false },
       { id := "node_2", type := "statement", lineNum := some 2,
         statement := some "// merge point", successors := [],
         predecessors := [], hasWipe := false, hasSensitiveVar := false },
       { id := "node_3", type := "statement", lineNum := some 2,
         statement := some "// true branch", successors := ["node_4"],
         predecessors := ["node_1"], hasWipe := false, hasSensitiveVar := false },
       { id := "node_4", type := "exit", lineNum := none, statement := none,
         successors := [], predecessors := ["node_3"], hasWipe := false,
         hasSensitiveVar := false }],
    entry := some "node_0",
    exits := ["node_4"] }

end ZA

namespace ZA

/-! Helper lemmas on the string and association-list primitives -/

theorem data_append (a b : String) : (a ++ b).data = a.data ++ b.data := by
  cases a; cases b; rfl

theorem listStartsWith_append {p a : List Char} (b : List Char)
    (h : listStartsWith p a = true) : listStartsWith p (a ++ b) = true := by
  induction p generalizing a with
  | nil => rfl
  | cons c cs ih =>
    cases a with
    | nil => simp [listStartsWith] at h
    | cons d ds =>
      simp only [listStartsWith, List.cons_append, Bool.and_eq_true] at h ⊢
      exact ⟨h.1, ih h.2⟩

theorem containsPat_append {p x : List Char} (y : List Char)
    (h : containsPat p x = true) : containsPat p (x ++ y) = true := by
  induction x with
  | nil =>
    have hp : listStartsWith p [] = true := h
    cases p with
    | nil =>
      cases y with
      | nil => rfl
      | cons c cs => simp [containsPat, listStartsWith]
    | cons q qs => simp [listStartsWith] at hp
  | cons c cs ih =>
    simp only [containsPat, Bool.or_eq_true] at h
    cases h with
    | inl h1 =>
      have := listStartsWith_append y h1
      simp only [List.cons_append, containsPat, Bool.or_eq_true]
      exact Or.inl (by simpa using this)
    | inr h2 =>
      simp only [List.cons_append, containsPat, Bool.or_eq_true]
      exact Or.inr (ih h2)

theorem containsSub_append_of {p s : String} (t : String)
    (h : containsSub p s = true) : containsSub p (s ++ t) = true := by
  unfold containsSub at h ⊢
  rw [data_append]
  exact containsPat_append t.data h

theorem containsPat_append_right {p y : List Char} (x : List Char)
    (h : containsPat p y = true) : containsPat p (x ++ y) = true := by
  induction x with
  | nil => simpa using h
  | cons c cs ih =>
    simp only [List.cons_append, containsPat, Bool.or_eq_true]
    exact Or.inr ih

theorem containsSub_append_right {p t : String} (s : String)
    (h : containsSub p t = true) : containsSub p (s ++ t) = true := by
  unfold containsSub at h ⊢
  rw [data_append]
  exact containsPat_append_right s.data h

theorem alookup_mem {α : Type} {m : List (String × α)} {k : String} {v : α}
    (h : alookup m k = some v) : (k, v) ∈ m := by
  induction m with
  | nil => simp [alookup] at h
  | cons kv rest ih =>
    obtain ⟨k0, v0⟩ := kv
    by_cases hk : k0 = k
    · subst hk
      simp [alookup] at h
      subst h
      exact List.mem_cons_self _ _
    · simp [alookup, hk] at h
      exact List.mem_cons_of_mem _ (ih h)

/-- The keys of an association list. -/
def keysOf {α : Type} (m : List (String × α)) : List String := m.map Prod.fst

theorem alookup_of_mem {α : Type} {m : List (String × α)} {k : String} {v : α}
    (hnd : (keysOf m).Nodup) (h : (k, v) ∈ m) : alookup m k = some v := by
  induction m with
  | nil => simp at h
  | cons kv rest ih =>
    obtain ⟨k0, v0⟩ := kv
    simp only [keysOf, List.map_cons, List.nodup_cons] at hnd
    rcases List.mem_cons.mp h with h1 | h2
    · cases h1
      simp [alookup]
    · have hk : ¬ k0 = k := by
        intro he
        subst he
        exact hnd.1 (List.mem_map.mpr ⟨(k0, v), h2, rfl⟩)
      simp [alookup, hk]
      exact ih hnd.2 h2

theorem keysOf_aset {α : Type} (m : List (String × α)) (k : String) (v : α) :
    keysOf (aset m k v) = if k ∈ keysOf m then keysOf m else keysOf m ++ [k] := by
  induction m with
  | nil => simp [aset, keysOf]
  | cons kv rest ih =>
    obtain ⟨k0, v0⟩ := kv
    by_cases hk : k0 = k
    · subst hk
      simp [aset, keysOf]
    · have hk2 : ¬ k ∈ ([k0] : List String) := by simp [Ne.symm hk]
      simp only [aset, if_neg hk, keysOf, List.map_cons] at ih ⊢
      rw [ih]
      by_cases hmem : k ∈ keysOf rest
      · simp [keysOf] at hmem
        simp [hmem, keysOf]
      · simp [keysOf] at hmem
        simp [hmem, Ne.symm hk, keysOf]

theorem nodupKeys_aset {α : Type} {m : List (String × α)} (k : String) (v : α)
    (hnd : (keysOf m).Nodup) : (keysOf (aset m k v)).Nodup := by
  rw [keysOf_aset]
  by_cases hmem : k ∈ keysOf m
  · simpa [hmem] using hnd
  · simpa [hmem, List.nodup_append] using hnd

theorem nodupKeys_foldl_aset {α β : Type} (key : List (String × α) → β → String)
    (val : List (String × α) → β → α) (l : List β) :
    ∀ m0, (keysOf m0).Nodup →
      (keysOf (l.foldl (fun m b => aset m (key m b) (val m b)) m0)).Nodup := by
  induction l with
  | nil => intro m0 h; simpa using h
  | cons b rest ih =>
    intro m0 h
    simp only [List.foldl_cons]
    exact ih _ (nodupKeys_aset _ _ h)

theorem mem_dedupKeep {a : String} {l : List String} : a ∈ dedupKeep l ↔ a ∈ l := by
  induction l with
  | nil => simp [dedupKeep]
  | cons x xs ih =>
    simp only [dedupKeep, List.mem_cons]
    constructor
    · rintro (h | h)
      · exact Or.inl h
      · exact Or.inr (ih.mp (List.mem_filter.mp h).1)
    · rintro (h | h)
      · exact Or.inl h
      · by_cases hx : a = x
        · exact Or.inl hx
        · refine Or.inr (List.mem_filter.mpr ⟨ih.mpr h, ?_⟩)
          simpa using hx

theorem nodup_dedupKeep (l : List String) : (dedupKeep l).Nodup := by
  induction l with
  | nil => simp [dedupKeep]
  | cons x xs ih =>
    simp only [dedupKeep, List.nodup_cons]
    refine ⟨?_, ih.filter _⟩
    intro hmem
    have := (List.mem_filter.mp hmem).2
    simp at this

end ZA

namespace ZA.Ir

theorem mem_insertSorted {x y : String × Nat} {l : List (String × Nat)} :
    x ∈ insertSorted y l ↔ x = y ∨ x ∈ l := by
  induction l with
  | nil => simp [insertSorted]
  | cons z zs ih =>
    unfold insertSorted
    split
    · simp [List.mem_cons]
    · simp [List.mem_cons, ih]
      tauto

theorem mem_sortByKey {x : String × Nat} {l : List (String × Nat)} :
    x ∈ sortByKey l ↔ x ∈ l := by
  induction l with
  | nil => simp [sortByKey]
  | cons z zs ih =>
    simp only [sortByKey, List.foldr_cons] at ih ⊢
    rw [mem_insertSorted, ih, List.mem_cons]

/-- The volatile-store count dict has distinct keys. -/
theorem nodupKeys_by_target (irText : String) :
    (keysOf (extract_volatile_stores_by_target irText)).Nodup := by
  unfold extract_volatile_stores_by_target
  exact nodupKeys_foldl_aset (fun _ k => k) (fun m k => (alookup m k).getD 0 + 1)
    (finditer volStoreTargetMatchAt irText) [] (by simp [keysOf])

/-- The alloca dict has distinct keys. -/
theorem nodupKeys_allocas (irText : String) :
    (keysOf (extract_allocas irText)).Nodup := by
  unfold extract_allocas
  exact nodupKeys_foldl_aset (fun _ kv => kv.1) (fun _ kv => kv.2)
    (finditer allocaMatchAt irText) [] (by simp [keysOf])

end ZA.Ir

open ZA in
/-- C7: when the assembly analyzer's architecture detection recognises
neither x86-64 nor AArch64 on readable input, `main` writes exactly one
finding, with category `ANALYSIS_SKIPPED` and `confidence = confirmed`,
and returns exit code 0. -/
theorem C7_unknown_arch_skips_cleanly (asmText asmPath : String)
    (h : Asm.detect_architecture asmText = "unknown") :
    Asm.check_rust_asm_dispatch asmText asmPath =
      .skipped 0
        [{ id := "F-RUST-ASM-SKIP-0001", category := "ANALYSIS_SKIPPED",
           severity := "info", confidence := "confirmed",
           detail := "Unsupported assembly architecture " ++ pyRepr "unknown" ++
             " -- no analysis performed",
           file := asmPath, line := 0 }] := by
  unfold Asm.check_rust_asm_dispatch
  rw [h]
  rfl

open ZA in
/-- Witness for C7 at the concrete input `"nop"`. -/
theorem C7_unknown_arch_skips_cleanly_witness :
    Asm.check_rust_asm_dispatch "nop" "t.s" =
      .skipped 0
        [{ id := "F-RUST-ASM-SKIP-0001", category := "ANALYSIS_SKIPPED",
           severity := "info", confidence := "confirmed",
           detail := "Unsupported assembly architecture " ++ pyRepr "unknown" ++
             " -- no analysis performed",
           file := "t.s", line := 0 }] :=
  C7_unknown_arch_skips_cleanly "nop" "t.s" (by decide)

namespace ZA.Gate

theorem applyGatesFinding_list_err {f : Finding} {e : PyVal} {es : List PyVal}
    (hf : f.evidence = some (.list (e :: es))) (m r : Bool) :
    applyGatesFinding m r f = .error .attributeError := by
  unfold applyGatesFinding evidenceLower
  rw [hf]
  simp [truthy, Bind.bind, Except.bind]

theorem applyGatesList_err {fs : List Finding} {f : Finding} (m r : Bool)
    (hmem : f ∈ fs) (herr : applyGatesFinding m r f = .error .attributeError) :
    ∃ err, applyGatesList m r fs = .error err := by
  induction fs with
  | nil => simp at hmem
  | cons g rest ih =>
    rcases List.mem_cons.mp hmem with h1 | h2
    · subst h1
      exact ⟨.attributeError, by simp [applyGatesList, herr, Bind.bind, Except.bind]⟩
    · unfold applyGatesList
      cases hg : applyGatesFinding m r g with
      | error err => exact ⟨err, by simp [hg, Bind.bind, Except.bind]⟩
      | ok g2 =>
        obtain ⟨err, herr2⟩ := ih h2
        exact ⟨err, by simp [hg, herr2, Bind.bind, Except.bind]⟩

end ZA.Gate

open ZA in
/-- C9: `apply_gates` is not total on the list-of-evidence-records finding
shape every analyzer in the repository emits: for any report containing a
finding whose `evidence` is a nonempty list, the string operation
`(finding.get("evidence") or "").lower()` on the gating path raises, so
`apply_gates` propagates an exception instead of gating the finding. -/
theorem C9_list_evidence_raises (report : Gate.Report) (m r : Bool)
    (f : Gate.Finding) (hmem : f ∈ report.findings)
    (hev : ∃ e es, f.evidence = some (.list (e :: es))) :
    ∃ err, Gate.apply_gates report m r = .error err := by
  obtain ⟨e, es, hf⟩ := hev
  obtain ⟨err, herr⟩ :=
    Gate.applyGatesList_err m r hmem (Gate.applyGatesFinding_list_err hf m r)
  exact ⟨err, by simp [Gate.apply_gates, herr, Bind.bind, Except.bind]⟩

open ZA in
/-- Witness for C9: a one-finding report whose evidence is
`[{source: "asm", detail: …}]` makes the gate raise. -/
theorem C9_list_evidence_raises_witness :
    ∃ err, Gate.apply_gates gateListEvReport false false = .error err :=
  C9_list_evidence_raises gateListEvReport false false gateListEvFinding
    (List.mem_cons_self _ _)
    ⟨.obj [("source", .str "asm"), ("detail", .str "spill of rax")], [], rfl⟩

open ZA in
/-- C10: the PoC synthesizer's minimum-confidence filter never reads a
finding's `confidence` field; the tier it derives is `confirmed` exactly
when the finding carries truthy `compiler_evidence` or an
`evidence_source` list containing `"cfg"`, else `needs_review` when the
`needs_review` boolean is truthy, else `likely`; consequently under the
default minimum `likely` every finding in a selected category without a
truthy `needs_review` and without those evidence signals is selected,
whatever its `confidence` field says. -/
theorem C10_filter_ignores_confidence :
    (∀ (f : Poc.Finding) (v : Option PyVal) (cats : List String) (mc : Option String),
       Poc.selectFinding { f with confidence := v } cats mc = Poc.selectFinding f cats mc) ∧
    (∀ f : Poc.Finding,
       Poc.derivedConf f =
         if truthy (f.compilerEvidence.getD .null) || Poc.cfgInEvidenceSource f then
           "confirmed"
         else if truthy (f.needsReview.getD (.bool false)) then "needs_review"
         else "likely") ∧
    (∀ (f : Poc.Finding) (cats : List String),
       Poc.inCategories f cats = true →
       truthy (f.needsReview.getD (.bool false)) = false →
       truthy (f.compilerEvidence.getD .null) = false →
       Poc.cfgInEvidenceSource f = false →
       Poc.selectFinding f cats (some Poc.defaultMinConfidence) = true) := by
  refine ⟨?_, ?_, ?_⟩
  · intro f v cats mc
    rfl
  · intro f
    unfold Poc.derivedConf
    cases hcfg : Poc.cfgInEvidenceSource f <;>
      cases hce : truthy (f.compilerEvidence.getD .null) <;>
      cases hnr : truthy (f.needsReview.getD (.bool false)) <;>
      simp [hcfg, hce, hnr]
  · intro f cats hcat hnr hce hcfg
    unfold Poc.selectFinding Poc.derivedConf Poc.defaultMinConfidence
    simp [hcat, hnr, hce, hcfg, Poc.confidenceOrder]

open ZA in
/-- Witness for C10: a `STACK_RETENTION` finding whose `confidence` field
says `needs_review` is selected under the default minimum, and flipping
its `confidence` field never changes the selection. -/
theorem C10_filter_ignores_confidence_witness :
    Poc.selectFinding pocWitnessFinding Poc.exploitableCategories
      (some Poc.defaultMinConfidence) = true ∧
    Poc.selectFinding { pocWitnessFinding with confidence := some (.str "confirmed") }
        Poc.exploitableCategories (some Poc.defaultMinConfidence) =
      Poc.selectFinding pocWitnessFinding Poc.exploitableCategories
        (some Poc.defaultMinConfidence) :=
  ⟨C10_filter_ignores_confidence.2.2 pocWitnessFinding Poc.exploitableCategories
      (by decide) rfl rfl rfl,
   C10_filter_ignores_confidence.1 pocWitnessFinding (some (.str "confirmed"))
      Poc.exploitableCategories (some Poc.defaultMinConfidence)⟩

namespace ZA.Gate

theorem isCat_iff {f : Finding} {s : String} :
    isCat f s = true ↔ f.category = some (.str s) := by
  unfold isCat
  cases hc : f.category with
  | none => simp
  | some v => cases v <;> simp

theorem gateEvidence_rel {f g : Finding} {note : String}
    (h : gateEvidence f note = .ok g) :
    g.category = f.category ∧ g.confidence = f.confidence ∧
    g.compilerEvidence = f.compilerEvidence ∧ g.rest = f.rest ∧
    g.needsReview = some (.bool true) ∧
    g.evidence = some (.str (pyStrip (baseStr f ++ note))) := by
  unfold gateEvidence at h
  cases hev : f.evidence with
  | none =>
    rw [hev] at h
    simp only [Option.getD_none] at h
    cases h
    simp [baseStr, hev]
  | some v =>
    rw [hev] at h
    simp only [Option.getD_some] at h
    cases v <;> simp at h
    case str s =>
      cases h
      simp [baseStr, hev]

theorem applyGatesFinding_rel {m r : Bool} {f g : Finding}
    (h : applyGatesFinding m r f = .ok g) : gateRel f g := by
  unfold applyGatesFinding at h
  cases hev : evidenceLower f with
  | error e => rw [hev] at h; simp [Bind.bind, Except.bind] at h
  | ok ev =>
    rw [hev] at h
    simp only [Bind.bind, Except.bind] at h
    by_cases hc1 : (isCat f "OPTIMIZED_AWAY_ZEROIZE" && !hasCompilerEvidence f) = true
    · rw [if_pos hc1] at h
      cases hge : gateEvidence f noteIr with
      | error e => rw [hge] at h; simp at h
      | ok f1 =>
        simp only [hge] at h
        obtain ⟨hcat, hconf, hce, hrest, hnr, hev1⟩ := gateEvidence_rel hge
        have hfcat : f.category = some (.str "OPTIMIZED_AWAY_ZEROIZE") :=
          isCat_iff.mp (Bool.and_elim_left hc1)
        have hc2 : (isCat f1 "STACK_RETENTION" || isCat f1 "REGISTER_SPILL") = false := by
          rw [Bool.or_eq_false_iff]
          constructor <;>
            · rw [← Bool.not_eq_true, isCat_iff, hcat, hfcat]
              simp
        simp only [hc2, Bool.false_and, Bool.false_eq_true, if_false] at h
        have hc3 :
            (isCat f1 "SECRET_COPY" || isCat f1 "MISSING_ON_ERROR_PATH" ||
              isCat f1 "NOT_DOMINATING_EXITS") = false := by
          rw [Bool.or_eq_false_iff, Bool.or_eq_false_iff]
          refine ⟨⟨?_, ?_⟩, ?_⟩ <;>
            · rw [← Bool.not_eq_true, isCat_iff, hcat, hfcat]
              simp
        simp only [hc3, Bool.and_false, Bool.false_eq_true, if_false, pure,
          Except.pure, Except.ok.injEq] at h
        subst h
        exact ⟨hcat, hconf, hce, hrest, Or.inr ⟨hnr, noteIr, Or.inl rfl, hev1⟩⟩
    · rw [if_neg hc1] at h
      simp only [pure, Except.pure] at h
      by_cases hc2 :
          ((isCat f "STACK_RETENTION" || isCat f "REGISTER_SPILL") &&
            !hasMarkerIn ev "asm") = true
      · rw [if_pos hc2] at h
        cases hge : gateEvidence f noteAsm with
        | error e => rw [hge] at h; simp at h
        | ok f2 =>
          simp only [hge] at h
          obtain ⟨hcat, hconf, hce, hrest, hnr, hev2⟩ := gateEvidence_rel hge
          have hfcat : f.category = some (.str "STACK_RETENTION") ∨
              f.category = some (.str "REGISTER_SPILL") := by
            rcases Bool.or_eq_true_iff.mp (Bool.and_elim_left hc2) with h1 | h1
            · exact Or.inl (isCat_iff.mp h1)
            · exact Or.inr (isCat_iff.mp h1)
          have hc3 :
              (isCat f2 "SECRET_COPY" || isCat f2 "MISSING_ON_ERROR_PATH" ||
                isCat f2 "NOT_DOMINATING_EXITS") = false := by
            rw [Bool.or_eq_false_iff, Bool.or_eq_false_iff]
            refine ⟨⟨?_, ?_⟩, ?_⟩ <;>
              · rw [← Bool.not_eq_true, isCat_iff, hcat]
                rcases hfcat with h1 | h1 <;> rw [h1] <;> simp
          simp only [hc3, Bool.and_false, Bool.false_eq_true, if_false, pure,
            Except.pure, Except.ok.injEq] at h
          subst h
          exact ⟨hcat, hconf, hce, hrest, Or.inr ⟨hnr, noteAsm, Or.inr (Or.inl rfl), hev2⟩⟩
      · rw [if_neg hc2] at h
        by_cases hc3 :
            (r && !m &&
              (isCat f "SECRET_COPY" || isCat f "MISSING_ON_ERROR_PATH" ||
                isCat f "NOT_DOMINATING_EXITS")) = true
        · rw [if_pos hc3] at h
          obtain ⟨hcat, hconf, hce, hrest, hnr, hev3⟩ := gateEvidence_rel h
          exact ⟨hcat, hconf, hce, hrest, Or.inr ⟨hnr, noteMcp, Or.inr (Or.inr rfl), hev3⟩⟩
        · rw [if_neg hc3] at h
          simp only [pure, Except.pure, Except.ok.injEq] at h
          subst h
          exact ⟨rfl, rfl, rfl, rfl, Or.inl ⟨rfl, rfl⟩⟩

theorem applyGatesList_rel {m r : Bool} : ∀ {fs gs : List Finding},
    applyGatesList m r fs = .ok gs → List.Forall₂ gateRel fs gs := by
  intro fs
  induction fs with
  | nil =>
    intro gs h
    unfold applyGatesList at h
    cases h
    exact List.Forall₂.nil
  | cons f rest ih =>
    intro gs h
    unfold applyGatesList at h
    cases hg : applyGatesFinding m r f with
    | error e => rw [hg] at h; simp [Bind.bind, Except.bind] at h
    | ok g =>
      rw [hg] at h
      cases hrest : applyGatesList m r rest with
      | error e => rw [hrest] at h; simp [Bind.bind, Except.bind] at h
      | ok gs2 =>
        rw [hrest] at h
        simp only [Bind.bind, Except.bind, pure, Except.pure, Except.ok.injEq] at h
        subst h
        exact List.Forall₂.cons (applyGatesFinding_rel hg) (ih hrest)

end ZA.Gate

open ZA in
/-- C1 (amended): when `apply_gates` completes without raising, no finding
is added or removed, and per finding the category, confidence (in
particular a `confirmed` value), `compiler_evidence` and all other keys
are untouched; the only modifications are setting `needs_review` to true
and replacing the evidence string with the whitespace-stripped
concatenation of the old evidence and one `[gated: …]` note (a pure
append only when the old evidence has no leading/trailing whitespace). -/
theorem C1_gate_frame (report : Gate.Report) (m r : Bool) (out : Gate.Report)
    (h : Gate.apply_gates report m r = .ok out) :
    out.findings.length = report.findings.length ∧
    List.Forall₂ Gate.gateRel report.findings out.findings ∧
    out.rest = report.rest := by
  unfold Gate.apply_gates at h
  cases hfs : Gate.applyGatesList m r report.findings with
  | error e => rw [hfs] at h; simp [Bind.bind, Except.bind] at h
  | ok fs =>
    rw [hfs] at h
    simp only [Bind.bind, Except.bind, pure, Except.pure, Except.ok.injEq] at h
    subst h
    have hrel := Gate.applyGatesList_rel hfs
    exact ⟨(List.Forall₂.length_eq hrel).symm, hrel, rfl⟩

open ZA in
/-- Witness for C1 at the concrete gated report. -/
theorem C1_gate_frame_witness :
    gateCexOutReport.findings.length = gateCexReport.findings.length ∧
    List.Forall₂ Gate.gateRel gateCexReport.findings gateCexOutReport.findings ∧
    gateCexOutReport.rest = gateCexReport.rest :=
  C1_gate_frame gateCexReport false false gateCexOutReport (by rfl)

open ZA in
/-- Counterexample to C1 as stated: gating a finding whose string evidence
is `" x"` yields evidence `"x [gated: missing assembly evidence]"`, which
does not start with the original evidence — `.strip()` removed the
leading whitespace, so the modification is not an append of a note to the
evidence field. -/
theorem C1_gate_append_counterexample :
    Gate.apply_gates gateCexReport false false = .ok gateCexOutReport ∧
    listStartsWith " x".data "x [gated: missing assembly evidence]".data = false :=
  ⟨by rfl, by rfl⟩

open ZA in
/-- C6: per MIR function body, the drop-without-StorageDead detector emits
exactly one finding per sensitive slot that occurs in some `drop(_X)` but
in no `StorageDead(_X)` — the findings list is the image of a
duplicate-free slot list whose membership is exactly that condition — and
the finding's category is `NOT_ON_ALL_PATHS` when the body contains a
`return`, else `MISSING_SOURCE_ZEROIZE`; on scenario D's body the
detector yields exactly one `NOT_ON_ALL_PATHS` finding with symbol
`secret`. -/
theorem C6_drop_without_storagedead :
    (∀ (fnName : String) (fnLines : List String) (fnStart : Nat)
       (debugMap : List (String × String)) (mirFile : String) (sens : String → Bool),
       Mir.detect_drop_before_storagedead fnName fnLines fnStart debugMap mirFile sens =
         (Mir.qualifyingSlots fnLines debugMap sens).map
           (Mir.dropFinding fnName fnStart debugMap mirFile (fnLines.any Mir.returnSearch)) ∧
       (Mir.qualifyingSlots fnLines debugMap sens).Nodup ∧
       (∀ slot,
         slot ∈ Mir.qualifyingSlots fnLines debugMap sens ↔
           (∃ l ∈ fnLines, slot ∈ Mir.dropSlots l) ∧
           (∀ l ∈ fnLines, slot ∉ Mir.storageDeadSlots l) ∧
           Mir.is_sensitive_local slot debugMap sens = true) ∧
       (∀ (hasReturn : Bool) (slot : String),
         (Mir.dropFinding fnName fnStart debugMap mirFile hasReturn slot).category =
           if hasReturn then "NOT_ON_ALL_PATHS" else "MISSING_SOURCE_ZEROIZE")) ∧
    Mir.detect_drop_before_storagedead "main" mirScenarioLines 10
      (Mir.local_names_from_debug_info mirScenarioLines) "t.mir"
      Mir.sensitiveLocalSearch = [mirScenarioFinding] := by
  constructor
  · intro fnName fnLines fnStart debugMap mirFile sens
    refine ⟨rfl, ?_, ?_, ?_⟩
    · exact ((nodup_dedupKeep _).filter _).filter _
    · intro slot
      unfold Mir.qualifyingSlots
      simp only [List.mem_filter, mem_dedupKeep, List.mem_flatten, List.mem_map,
        Bool.not_eq_true']
      constructor
      · rintro ⟨⟨⟨l2, ⟨l, hl, rfl⟩, hslot⟩, hdead⟩, hsens⟩
        refine ⟨⟨l, hl, hslot⟩, ?_, hsens⟩
        intro l hl2 hmem
        simp [List.contains] at hdead
        exact hdead l hl2 hmem
      · rintro ⟨⟨l, hl, hslot⟩, hdead, hsens⟩
        refine ⟨⟨⟨_, ⟨l, hl, rfl⟩, hslot⟩, ?_⟩, hsens⟩
        simp [List.contains]
        exact hdead
    · intro hasReturn slot
      cases hasReturn <;> rfl
  · decide

open ZA in
/-- Witness for C6: on scenario D's body, slot `_3` qualifies. -/
theorem C6_drop_without_storagedead_witness :
    "_3" ∈ Mir.qualifyingSlots mirScenarioLines
      (Mir.local_names_from_debug_info mirScenarioLines) Mir.sensitiveLocalSearch ∧
    Mir.detect_drop_before_storagedead "main" mirScenarioLines 10
      (Mir.local_names_from_debug_info mirScenarioLines) "t.mir"
      Mir.sensitiveLocalSearch = [mirScenarioFinding] :=
  ⟨((C6_drop_without_storagedead.1 "main" mirScenarioLines 10
      (Mir.local_names_from_debug_info mirScenarioLines) "t.mir"
      Mir.sensitiveLocalSearch).2.2.1 "_3").mpr
      ⟨by decide, by decide, by decide⟩,
   C6_drop_without_storagedead.2⟩

namespace ZA.Apis

open ZA

theorem scanPatAux_not_skipped (p : ApiPattern) (path : String) (allLines : List String) :
    ∀ (lines : List String) (lineno : Nat) (inB : Bool) (f : Finding),
      f ∈ scanPatAux p path allLines lineno inB lines →
      ∃ k, k < lines.length ∧ f.line = lineno + k ∧
        (commentSkipFlags inB lines).get? k = some false := by
  intro lines
  induction lines with
  | nil => intro lineno inB f h; simp [scanPatAux] at h
  | cons l rest ih =>
    intro lineno inB f h
    rcases hr : isCommentedOut l inB with ⟨sk, inB2⟩
    rw [scanPatAux, hr] at h
    have hflags : commentSkipFlags inB (l :: rest) = sk :: commentSkipFlags inB2 rest := by
      rw [commentSkipFlags, hr]
    cases sk with
    | true =>
      simp only [if_true] at h
      obtain ⟨k, hk, hline, hflag⟩ := ih (lineno + 1) inB2 f h
      exact ⟨k + 1, by simp only [List.length_cons]; omega, by omega,
        by rw [hflags]; simpa using hflag⟩
    | false =>
      simp only [if_false, Bool.false_eq_true] at h
      by_cases hs : apiSearch p l = true
      · rw [hs] at h
        simp only [Bool.not_true, Bool.false_eq_true, if_false] at h
        rcases List.mem_cons.mp h with h1 | h2
        · subst h1
          exact ⟨0, by simp, by simp, by rw [hflags]; rfl⟩
        · obtain ⟨k, hk, hline, hflag⟩ := ih (lineno + 1) inB2 f h2
          exact ⟨k + 1, by simp only [List.length_cons]; omega, by omega,
            by rw [hflags]; simpa using hflag⟩
      · rw [Bool.not_eq_true] at hs
        rw [hs] at h
        simp only [Bool.not_false, if_true] at h
        obtain ⟨k, hk, hline, hflag⟩ := ih (lineno + 1) inB2 f h
        exact ⟨k + 1, by simp only [List.length_cons]; omega, by omega,
          by rw [hflags]; simpa using hflag⟩

end ZA.Apis

open ZA in
/-- C3 (amended): the API pattern pass never emits a finding for a line
the comment filter skips — lines whose stripped text starts with `//` or
`/*` and lines inside (or closing) a multi-line block comment; every
emitted finding points at a line whose skip flag is false.  (An
occurrence inside a trailing comment that shares its line with code is
still flagged, as the counterexample shows: the scanner matches the whole
raw line.) -/
theorem C3_comment_skip (path source : String) (f : Finding)
    (h : f ∈ Apis.scan_file_patterns path source) :
    ∃ k, k < (pySplitLines source).length ∧ f.line = k + 1 ∧
      (Apis.commentSkipFlags false (pySplitLines source)).get? k = some false := by
  unfold Apis.scan_file_patterns at h
  rw [List.mem_flatten] at h
  obtain ⟨fl, hfl, hmem⟩ := h
  obtain ⟨p, _, rfl⟩ := List.mem_map.mp hfl
  obtain ⟨k, hk, hline, hflag⟩ :=
    Apis.scanPatAux_not_skipped p path (pySplitLines source) (pySplitLines source)
      1 false f hmem
  exact ⟨k, hk, by omega, hflag⟩

open ZA in
/-- Witness for C3 at a concrete emitted finding. -/
theorem C3_comment_skip_witness :
    ∃ k, k < (pySplitLines apiCexSource).length ∧ apiCexFinding.line = k + 1 ∧
      (Apis.commentSkipFlags false (pySplitLines apiCexSource)).get? k = some false :=
  C3_comment_skip "lib.rs" apiCexSource apiCexFinding (by decide)

open ZA in
/-- Counterexample to C3 as stated: on the line
`foo(); // mem::forget(x)` the only dangerous-API occurrence lies inside
the trailing `//` comment (no pattern matches the code part
`"foo(); "`), yet the scanner emits a finding for the line. -/
theorem C3_comment_counterexample :
    Apis.scan_file_patterns "lib.rs" apiCexSource = [apiCexFinding] ∧
    (Apis.apiPatterns.all (fun p => !Apis.apiSearch p "foo(); ")) = true := by
  exact ⟨by decide, by decide⟩

namespace ZA.Asm

open ZA

theorem stack_retention_marker {funcName : String} {funcLines : List (Nat × String)}
    {f : RawFinding} (h : check_stack_retention funcName funcLines = some f) :
    containsSub "[EXPERIMENTAL]" f.detail = true := by
  unfold check_stack_retention mkStackFinding at h
  split at h
  · split at h
    · cases h
      simp only []
      repeat apply containsSub_append_of
      decide
    · simp at h
  · simp at h

theorem spill_findings_marker {funcName : String} :
    ∀ (l : List (Nat × String × String)) (seen : List String) (f : RawFinding),
      f ∈ spillFindingsAux funcName seen l →
      containsSub "[EXPERIMENTAL]" f.detail = true := by
  intro l
  induction l with
  | nil => intro seen f h; simp [spillFindingsAux] at h
  | cons x rest ih =>
    intro seen f h
    obtain ⟨lineno, reg, lineText⟩ := x
    rw [spillFindingsAux] at h
    by_cases hseen : seen.contains reg = true
    · rw [if_pos hseen] at h
      exact ih seen f h
    · rw [if_neg hseen] at h
      rcases List.mem_cons.mp h with h1 | h2
      · subst h1
        simp only []
        repeat apply containsSub_append_of
        decide
      · exact ih _ f h2

end ZA.Asm

open ZA in
/-- C5 (amended): every finding produced by the AArch64 backend's
`analyze_function` carries the `[EXPERIMENTAL]` marker in its detail; the
shared drop-glue corroboration check, which also runs on AArch64 input,
emits its finding without the marker (see the counterexample). -/
theorem C5_aarch64_experimental_marker (funcName : String)
    (funcLines : List (Nat × String)) (f : Asm.RawFinding)
    (h : f ∈ Asm.analyze_function_aarch64 funcName funcLines) :
    containsSub "[EXPERIMENTAL]" f.detail = true := by
  unfold Asm.analyze_function_aarch64 at h
  rcases List.mem_append.mp h with h1 | h2
  · cases hs : Asm.check_stack_retention funcName funcLines with
    | none => rw [hs] at h1; simp at h1
    | some g =>
      rw [hs] at h1
      simp only [Option.toList_some, List.mem_singleton] at h1
      subst h1
      exact Asm.stack_retention_marker hs
  · exact Asm.spill_findings_marker _ _ f h2

open ZA in
/-- Witness for C5: the stack-retention finding of the concrete AArch64
function carries the marker. -/
theorem C5_aarch64_experimental_marker_witness :
    ∃ f ∈ Asm.analyze_function_aarch64 "drop_in_place_SecretKey"
        [(2, "drop_in_place_SecretKey:"), (3, "\tstp x29, x30, [sp, #-16]!"),
         (4, "\tsub sp, sp, #32"), (5, "\tret")],
      containsSub "[EXPERIMENTAL]" f.detail = true := by
  have hmem : (Asm.analyze_function_aarch64 "drop_in_place_SecretKey"
      [(2, "drop_in_place_SecretKey:"), (3, "\tstp x29, x30, [sp, #-16]!"),
       (4, "\tsub sp, sp, #32"), (5, "\tret")]).length = 3 := by decide
  cases he : Asm.analyze_function_aarch64 "drop_in_place_SecretKey"
      [(2, "drop_in_place_SecretKey:"), (3, "\tstp x29, x30, [sp, #-16]!"),
       (4, "\tsub sp, sp, #32"), (5, "\tret")] with
  | nil => rw [he] at hmem; simp at hmem
  | cons g rest =>
    refine ⟨g, List.mem_cons_self _ _, ?_⟩
    apply C5_aarch64_experimental_marker "drop_in_place_SecretKey" _ g
    rw [he]
    exact List.mem_cons_self _ _

open ZA in
/-- Counterexample to C5 as stated: on AArch64-detected input, the
analyzer's per-function loop also runs the shared drop-glue check, whose
`MISSING_SOURCE_ZEROIZE` finding carries no `[EXPERIMENTAL]` marker: the
third finding written for `a64CexLines` lacks it (the two x29/x30 spills
collapse into one finding because their dedup keys coincide). -/
theorem C5_drop_glue_unmarked_counterexample :
    Asm.detect_architecture a64CexText = "aarch64" ∧
    ((Asm.aarch64MainFindings (Asm.parse_functions a64CexLines) ["SecretKey"]).map
      (fun f => containsSub "[EXPERIMENTAL]" f.detail)) = [true, true, false] ∧
    ((Asm.aarch64MainFindings (Asm.parse_functions a64CexLines) ["SecretKey"]).map
      (fun f => f.category)) =
      ["STACK_RETENTION", "REGISTER_SPILL", "MISSING_SOURCE_ZEROIZE"] := by
  refine ⟨by decide, by decide, by decide⟩

namespace ZA.Ir

open ZA

theorem sec1_self_nil (t f2 : String) : sec1 t t f2 = [] := by
  unfold sec1
  simp

theorem sec1b_self_nil (t f2 : String) : sec1b t t f2 = [] := by
  unfold sec1b
  apply List.filterMap_eq_nil_iff.mpr
  intro kv hkv
  have hkv2 := mem_sortByKey.mp hkv
  have hl := alookup_of_mem (nodupKeys_by_target t) hkv2
  rw [hl]
  simp

theorem sec4_self_nil (t f2 : String) : sec4 t t f2 = [] := by
  unfold sec4
  apply List.filterMap_eq_nil_iff.mpr
  intro kv hkv
  have hl := alookup_of_mem (nodupKeys_allocas t) hkv
  by_cases hsz : (!secretAllocaSizes.contains kv.2) = true
  · rw [if_pos hsz]
  · rw [if_neg hsz, hl]
    rfl

theorem sec8_pair_nil (f0 t f2 : String) (rep : List String) :
    sec8 ⟨some (f0, t), none, some (f2, t), none⟩ rep = [] := by
  have hp : sec8pairs ⟨some (f0, t), none, some (f2, t), none⟩ =
      ([] : List (String × String)) := rfl
  unfold sec8
  rw [hp]
  rfl

/-- The section-1 finding under a strict total-count drop. -/
theorem sec1_mem {o0t o2t : String} (o2f : String)
    (h : count_volatile_stores o0t > count_volatile_stores o2t) :
    ∃ f ∈ sec1 o0t o2t o2f, f.category = "OPTIMIZED_AWAY_ZEROIZE" ∧ f.symbol = "" ∧
      f.line = 0 ∧ containsSub "Volatile store count dropped from" f.detail = true := by
  unfold sec1
  rw [if_pos h]
  refine ⟨_, List.mem_singleton.mpr rfl, rfl, rfl, rfl, ?_⟩
  simp only []
  repeat apply containsSub_append_of
  decide

/-- The section-1b finding for a symbol whose volatile-store count
drops. -/
theorem sec1b_mem {o0t o2t : String} (o2f : String) {sym : String}
    (h : (alookup (extract_volatile_stores_by_target o0t) sym).getD 0 >
      (alookup (extract_volatile_stores_by_target o2t) sym).getD 0) :
    ∃ f ∈ sec1b o0t o2t o2f, f.category = "OPTIMIZED_AWAY_ZEROIZE" ∧ f.symbol = sym ∧
      containsSub "symbol-specific wipe elimination detected" f.detail = true := by
  cases hl : alookup (extract_volatile_stores_by_target o0t) sym with
  | none => rw [hl] at h; simp at h
  | some v =>
    rw [hl] at h
    simp only [Option.getD_some] at h
    have hmem2 : (sym, v) ∈ sortByKey (extract_volatile_stores_by_target o0t) :=
      mem_sortByKey.mpr (alookup_mem hl)
    refine ⟨perSymbolFinding o2f sym v
        ((alookup (extract_volatile_stores_by_target o2t) sym).getD 0), ?_, rfl, rfl, ?_⟩
    · unfold sec1b
      exact List.mem_filterMap.mpr ⟨(sym, v), hmem2, by rw [if_pos h]⟩
    · simp only [perSymbolFinding]
      apply containsSub_append_right
      decide

end ZA.Ir

open ZA in
/-- C2 (amended): identical O0/O2 texts produce no findings from any of
the level-comparison sections (total count, per-symbol counts, vanished
allocas, adjacent pairs) — the output is exactly the O2-only single-file
checks, which can still fire (see the counterexample); and whenever the
O0 text has strictly more volatile stores than the O2 text, a total-count
`OPTIMIZED_AWAY_ZEROIZE` finding is emitted, with a per-symbol finding
whenever some symbol's volatile-store count also drops. -/
theorem C2_ir_diff_monotonicity :
    (∀ t f0 f2,
       Ir.analyze { o0 := some (f0, t), o1 := none, o2 := some (f2, t), o3 := none } =
         Ir.o2OnlyFindings t f2) ∧
    (∀ (m : Ir.LevelToIR) (o0 o2 : String × String),
       m.o0 = some o0 → m.o2 = some o2 →
       Ir.count_volatile_stores o0.2 > Ir.count_volatile_stores o2.2 →
       ∃ f ∈ Ir.analyze m, f.category = "OPTIMIZED_AWAY_ZEROIZE" ∧ f.symbol = "" ∧
         f.line = 0 ∧ containsSub "Volatile store count dropped from" f.detail = true) ∧
    (∀ (m : Ir.LevelToIR) (o0 o2 : String × String) (sym : String),
       m.o0 = some o0 → m.o2 = some o2 →
       (alookup (Ir.extract_volatile_stores_by_target o0.2) sym).getD 0 >
         (alookup (Ir.extract_volatile_stores_by_target o2.2) sym).getD 0 →
       ∃ f ∈ Ir.analyze m, f.category = "OPTIMIZED_AWAY_ZEROIZE" ∧ f.symbol = sym ∧
         containsSub "symbol-specific wipe elimination detected" f.detail = true) := by
  refine ⟨?_, ?_, ?_⟩
  · intro t f0 f2
    show Ir.sec1 t t f2 ++ Ir.sec1b t t f2 ++ Ir.sec2 t f2 ++ Ir.sec3 t f2 ++
        Ir.sec4 t t f2 ++ Ir.sec5 t f2 ++ Ir.sec6 t f2 ++ Ir.sec7 t f2 ++
        Ir.sec8 _ (Ir.reported_by_1b t t) = _
    rw [Ir.sec1_self_nil, Ir.sec1b_self_nil, Ir.sec4_self_nil, Ir.sec8_pair_nil]
    simp [Ir.o2OnlyFindings]
  · intro m o0 o2 h0 h2 hc
    obtain ⟨mo0, mo1, mo2, mo3⟩ := m
    simp only at h0 h2
    subst h0
    subst h2
    obtain ⟨f, hf, hprops⟩ := Ir.sec1_mem o2.1 hc
    refine ⟨f, ?_, hprops⟩
    have hred : Ir.analyze ⟨some o0, mo1, some o2, mo3⟩ =
        Ir.sec1 o0.2 o2.2 o2.1 ++ Ir.sec1b o0.2 o2.2 o2.1 ++ Ir.sec2 o2.2 o2.1 ++
        Ir.sec3 o2.2 o2.1 ++ Ir.sec4 o0.2 o2.2 o2.1 ++ Ir.sec5 o2.2 o2.1 ++
        Ir.sec6 o2.2 o2.1 ++ Ir.sec7 o2.2 o2.1 ++
        Ir.sec8 ⟨some o0, mo1, some o2, mo3⟩ (Ir.reported_by_1b o0.2 o2.2) := rfl
    rw [hred]
    simp only [List.mem_append]
    tauto
  · intro m o0 o2 sym h0 h2 hc
    obtain ⟨mo0, mo1, mo2, mo3⟩ := m
    simp only at h0 h2
    subst h0
    subst h2
    obtain ⟨f, hf, hprops⟩ := Ir.sec1b_mem o2.1 hc
    refine ⟨f, ?_, hprops⟩
    have hred : Ir.analyze ⟨some o0, mo1, some o2, mo3⟩ =
        Ir.sec1 o0.2 o2.2 o2.1 ++ Ir.sec1b o0.2 o2.2 o2.1 ++ Ir.sec2 o2.2 o2.1 ++
        Ir.sec3 o2.2 o2.1 ++ Ir.sec4 o0.2 o2.2 o2.1 ++ Ir.sec5 o2.2 o2.1 ++
        Ir.sec6 o2.2 o2.1 ++ Ir.sec7 o2.2 o2.1 ++
        Ir.sec8 ⟨some o0, mo1, some o2, mo3⟩ (Ir.reported_by_1b o0.2 o2.2) := rfl
    rw [hred]
    simp only [List.mem_append]
    tauto

open ZA in
/-- Witness for C2 on a pair where one volatile store to `%key` vanishes:
both the total-count and the per-symbol findings are emitted. -/
theorem C2_ir_diff_monotonicity_witness :
    (∃ f ∈ Ir.analyze irDropPair, f.category = "OPTIMIZED_AWAY_ZEROIZE" ∧ f.symbol = "" ∧
       f.line = 0 ∧ containsSub "Volatile store count dropped from" f.detail = true) ∧
    (∃ f ∈ Ir.analyze irDropPair, f.category = "OPTIMIZED_AWAY_ZEROIZE" ∧
       f.symbol = "key" ∧
       containsSub "symbol-specific wipe elimination detected" f.detail = true) :=
  ⟨C2_ir_diff_monotonicity.2.1 irDropPair ("a.ll", "store volatile i8 0, ptr %key")
      ("b.ll", "ret void") rfl rfl (by decide),
   C2_ir_diff_monotonicity.2.2 irDropPair ("a.ll", "store volatile i8 0, ptr %key")
      ("b.ll", "ret void") "key" rfl rfl (by decide)⟩

open ZA in
/-- Counterexample to C2 as stated: identical O0/O2 texts containing one
non-volatile `llvm.memset` call still yield a finding (from the O2-only
memset check), so identical inputs do not imply an empty finding list. -/
theorem C2_identical_not_empty_counterexample :
    irCexPair.o0 = some ("a.ll", irCexText) ∧ irCexPair.o2 = some ("b.ll", irCexText) ∧
    (Ir.analyze irCexPair).length = 1 ∧
    ((Ir.analyze irCexPair).map (fun f => f.category)) = ["OPTIMIZED_AWAY_ZEROIZE"] :=
  ⟨rfl, rfl, by decide, by decide⟩

namespace ZA.Ir

open ZA

/-- Section-8 findings always carry a symbol outside `reported`. -/
theorem sec8_symbol_not_reported {m : LevelToIR} {rep : List String} {f : Finding}
    (h : f ∈ sec8 m rep) : f.symbol ∉ rep := by
  unfold sec8 at h
  rw [List.mem_flatMap] at h
  obtain ⟨p, _, hf⟩ := h
  cases hfrom : getLevel m p.1 with
  | none => rw [hfrom] at hf; simp at hf
  | some fromIr =>
    cases hto : getLevel m p.2 with
    | none => rw [hfrom, hto] at hf; simp at hf
    | some toIr =>
      rw [hfrom, hto] at hf
      obtain ⟨kv, _, heq⟩ := List.mem_filterMap.mp hf
      by_cases hrep : rep.contains kv.1 = true
      · rw [if_pos hrep] at heq
        simp at heq
      · rw [if_neg hrep] at heq
        have heq2 : (if kv.2 > (alookup (extract_volatile_stores_by_target toIr.2) kv.1).getD 0
            then some (adjFinding toIr.1 kv.1 p.1 p.2 kv.2
              ((alookup (extract_volatile_stores_by_target toIr.2) kv.1).getD 0))
            else none) = some f := heq
        split at heq2
        · cases heq2
          simp only [adjFinding]
          simp [List.contains] at hrep
          exact hrep
        · simp at heq2

/-- Section-1b findings always carry a symbol inside `reported_by_1b`. -/
theorem sec1b_symbol_reported {o0t o2t o2f : String} {g : Finding}
    (h : g ∈ sec1b o0t o2t o2f) : g.symbol ∈ reported_by_1b o0t o2t := by
  unfold sec1b at h
  obtain ⟨kv, hkv, heq⟩ := List.mem_filterMap.mp h
  have heq2 : (if kv.2 > (alookup (extract_volatile_stores_by_target o2t) kv.1).getD 0
      then some (perSymbolFinding o2f kv.1 kv.2
        ((alookup (extract_volatile_stores_by_target o2t) kv.1).getD 0))
      else none) = some g := heq
  split at heq2
  · cases heq2
    simp only [perSymbolFinding]
    unfold reported_by_1b
    exact List.mem_filterMap.mpr
      ⟨kv, mem_sortByKey.mp hkv, by rw [if_pos (by assumption)]⟩
  · simp at heq2

end ZA.Ir

open ZA in
/-- C8: the adjacent-pair per-symbol comparison never compares the
(O0, O2) pair — when O1 is present that pair is not adjacent, and when O1
is absent it is skipped explicitly — and it never emits a per-symbol
finding for a symbol the direct O0 → O2 per-symbol pass (section 1b)
already reported. -/
theorem C8_adjacent_pair_dedup :
    (∀ m : Ir.LevelToIR, ("O0", "O2") ∉ Ir.sec8pairs m) ∧
    (∀ (m : Ir.LevelToIR) (o0 o2 : String × String),
       m.o0 = some o0 → m.o2 = some o2 →
       ∀ f ∈ Ir.sec8 m (Ir.reported_by_1b o0.2 o2.2),
         ∀ g ∈ Ir.sec1b o0.2 o2.2 o2.1, g.symbol ≠ f.symbol) := by
  constructor
  · intro m hmem
    have := (List.mem_filter.mp hmem).2
    simp at this
  · intro m o0 o2 h0 h2 f hf g hg hEq
    have hnot := Ir.sec8_symbol_not_reported hf
    have hin := Ir.sec1b_symbol_reported hg
    rw [hEq] at hin
    exact hnot hin

open ZA in
/-- Witness for C8 on the three-level input `irMultiLevel`: the (O1, O2)
pair reports `%t`, the direct pass reports `%a`, and their symbols
differ. -/
theorem C8_adjacent_pair_dedup_witness :
    ("O0", "O2") ∉ Ir.sec8pairs irMultiLevel ∧
    (Ir.perSymbolFinding "c.ll" "a" 1 0).symbol ≠
      (Ir.adjFinding "c.ll" "t" "O1" "O2" 2 0).symbol :=
  ⟨C8_adjacent_pair_dedup.1 irMultiLevel,
   C8_adjacent_pair_dedup.2 irMultiLevel
      ("a.ll", "store volatile i8 0, ptr %a") ("c.ll", "ret void") rfl rfl
      (Ir.adjFinding "c.ll" "t" "O1" "O2" 2 0) (by decide)
      (Ir.perSymbolFinding "c.ll" "a" 1 0) (by decide)⟩

namespace ZA.Cfg

theorem interList_subset_head (x : Finset String) (xs : List (Finset String)) :
    interList (x :: xs) ⊆ x := by
  cases xs with
  | nil => exact le_refl x
  | cons y ys => exact Finset.inter_subset_left

theorem interList_map_mono {D1 D2 : String → Finset String} (h : Dle D1 D2) :
    ∀ ps : List String, interList (ps.map D1) ⊆ interList (ps.map D2) := by
  intro ps
  induction ps with
  | nil => exact Finset.Subset.refl _
  | cons p qs ih =>
    cases qs with
    | nil => exact h p
    | cons q rs =>
      exact Finset.inter_subset_inter (h p) ih

theorem stepNode_mono (g : CFG) {D1 D2 : String → Finset String} (h : Dle D1 D2)
    (n : String) : stepNode g D1 n ⊆ stepNode g D2 n := by
  unfold stepNode
  by_cases hp : preds g n = []
  · rw [if_pos hp, if_pos hp]
  · rw [if_neg hp, if_neg hp]
    exact Finset.insert_subset_insert _ (interList_map_mono h _)

theorem updateD_self (D : String → Finset String) (n : String) (v : Finset String) :
    updateD D n v n = v := by
  unfold updateD
  rw [if_pos rfl]

theorem updateD_ne (D : String → Finset String) {n x : String} (v : Finset String)
    (h : ¬ x = n) : updateD D n v x = D x := by
  unfold updateD
  rw [if_neg h]

theorem sum_lt_sum_of_mem {l : List String} {f1 f2 : String → Nat}
    (hle : ∀ x ∈ l, f1 x ≤ f2 x) (x0 : String) (hx0 : x0 ∈ l) (hlt : f1 x0 < f2 x0) :
    (l.map f1).sum < (l.map f2).sum := by
  induction l with
  | nil => simp at hx0
  | cons y ys ih =>
    simp only [List.map_cons, List.sum_cons]
    rcases List.mem_cons.mp hx0 with h1 | h2
    · subst h1
      have hrest : (ys.map f1).sum ≤ (ys.map f2).sum :=
        List.sum_le_sum (fun i hi => hle i (List.mem_cons_of_mem _ hi))
      omega
    · have hhead : f1 y ≤ f2 y := hle y (List.mem_cons_self _ _)
      have := ih (fun x hx => hle x (List.mem_cons_of_mem _ hx)) h2
      omega

theorem mu_lt_of_update (g : CFG) {D : String → Finset String} {n : String}
    {v : Finset String} (hn : n ∈ nodeIds g) (hsub : v ⊆ D n) (hne : ¬ v = D n) :
    muMeasure g (updateD D n v) < muMeasure g D := by
  unfold muMeasure
  apply sum_lt_sum_of_mem _ n hn
  · rw [updateD_self]
    exact Finset.card_lt_card (ssubset_of_subset_of_ne hsub hne)
  · intro x _
    by_cases hx : x = n
    · subst hx
      rw [updateD_self]
      exact Finset.card_le_card hsub
    · rw [updateD_ne _ _ hx]

theorem domPass_spec (g : CFG) (e : String) :
    ∀ (l : List String) (D : String → Finset String) (ch : Bool),
      (∀ n ∈ l, n ∈ nodeIds g) → Inv g e D →
      Inv g e (domPass g e l D ch).1 ∧ Dle (domPass g e l D ch).1 D ∧
      (domPass g e l D ch = (D, ch) ∨
        (muMeasure g (domPass g e l D ch).1 < muMeasure g D ∧
         (domPass g e l D ch).2 = true)) := by
  intro l
  induction l with
  | nil =>
    intro D ch _ hInv
    exact ⟨hInv, fun x => Finset.Subset.refl _, Or.inl rfl⟩
  | cons n rest ih =>
    intro D ch hl hInv
    by_cases hne : n = e
    · rw [domPass, if_pos hne]
      exact ih D ch (fun m hm => hl m (List.mem_cons_of_mem _ hm)) hInv
    · by_cases hstep : stepNode g D n = D n
      · rw [domPass, if_neg hne, if_pos hstep]
        exact ih D ch (fun m hm => hl m (List.mem_cons_of_mem _ hm)) hInv
      · rw [domPass, if_neg hne, if_neg hstep]
        have hnid : n ∈ nodeIds g := hl n (List.mem_cons_self _ _)
        have hsub : stepNode g D n ⊆ D n := hInv n hnid hne
        have hDle1 : Dle (updateD D n (stepNode g D n)) D := by
          intro x
          by_cases hx : x = n
          · subst hx
            rw [updateD_self]
            exact hsub
          · rw [updateD_ne _ _ hx]
        have hInv1 : Inv g e (updateD D n (stepNode g D n)) := by
          intro m hm hme
          have hmono := stepNode_mono g hDle1 m
          by_cases hmn : m = n
          · subst hmn
            rw [updateD_self]
            exact hmono
          · rw [updateD_ne _ _ hmn]
            exact le_trans hmono (hInv m hm hme)
        have hmu : muMeasure g (updateD D n (stepNode g D n)) < muMeasure g D :=
          mu_lt_of_update g hnid hsub hstep
        obtain ⟨hInv2, hDle2, hdisj⟩ :=
          ih (updateD D n (stepNode g D n)) true
            (fun m hm => hl m (List.mem_cons_of_mem _ hm)) hInv1
        refine ⟨hInv2, fun x => le_trans (hDle2 x) (hDle1 x), Or.inr ?_⟩
        rcases hdisj with hd | hd
        · rw [hd]
          exact ⟨hmu, rfl⟩
        · exact ⟨lt_trans hd.1 hmu, hd.2⟩

theorem domPass_true_snd (g : CFG) (e : String) :
    ∀ (l : List String) (D : String → Finset String), (domPass g e l D true).2 = true := by
  intro l
  induction l with
  | nil => intro D; rfl
  | cons n rest ih =>
    intro D
    by_cases hne : n = e
    · rw [domPass, if_pos hne]; exact ih D
    · by_cases hstep : stepNode g D n = D n
      · rw [domPass, if_neg hne, if_pos hstep]; exact ih D
      · rw [domPass, if_neg hne, if_neg hstep]; exact ih _

theorem domPass_false_eq (g : CFG) (e : String) :
    ∀ (l : List String) (D D2 : String → Finset String),
      domPass g e l D false = (D2, false) →
      ∀ n ∈ l, n ≠ e → stepNode g D n = D n := by
  intro l
  induction l with
  | nil => intro D D2 _ n hn; simp at hn
  | cons m rest ih =>
    intro D D2 h n hn hne
    by_cases hme : m = e
    · rw [domPass, if_pos hme] at h
      rcases List.mem_cons.mp hn with h1 | h2
      · subst h1; exact absurd hme hne
      · exact ih D D2 h n h2 hne
    · by_cases hstep : stepNode g D m = D m
      · rw [domPass, if_neg hme, if_pos hstep] at h
        rcases List.mem_cons.mp hn with h1 | h2
        · subst h1; exact hstep
        · exact ih D D2 h n h2 hne
      · rw [domPass, if_neg hme, if_neg hstep] at h
        have := domPass_true_snd g e rest (updateD D m (stepNode g D m))
        rw [h] at this
        simp at this

theorem domPass_fst_entry (g : CFG) (e : String) :
    ∀ (l : List String) (D : String → Finset String) (ch : Bool),
      (domPass g e l D ch).1 e = D e := by
  intro l
  induction l with
  | nil => intro D ch; rfl
  | cons n rest ih =>
    intro D ch
    by_cases hne : n = e
    · rw [domPass, if_pos hne]; exact ih D ch
    · by_cases hstep : stepNode g D n = D n
      · rw [domPass, if_neg hne, if_pos hstep]; exact ih D ch
      · rw [domPass, if_neg hne, if_neg hstep]
        rw [ih _ true, updateD_ne _ _ (fun he => hne he.symm)]

theorem domIter_entry (g : CFG) (e : String) :
    ∀ (fuel : Nat) (D : String → Finset String), domIter g e fuel D e = D e := by
  intro fuel
  induction fuel with
  | zero => intro D; rfl
  | succ k ih =>
    intro D
    by_cases hch : (domPass g e (nodeIds g) D false).2 = true
    · rw [domIter, if_pos hch, ih, domPass_fst_entry]
    · rw [domIter, if_neg hch, domPass_fst_entry]

theorem inv_init (g : CFG) (e : String) (he : e ∈ nodeIds g) :
    Inv g e (initDom g e) := by
  intro n hn hne
  have hD : initDom g e n = allNodesFinset g := by
    unfold initDom
    rw [if_neg hne]
  rw [hD]
  unfold stepNode
  by_cases hp : preds g n = []
  · rw [if_pos hp]
    exact Finset.singleton_subset_iff.mpr (List.mem_toFinset.mpr hn)
  · rw [if_neg hp]
    apply Finset.insert_subset (List.mem_toFinset.mpr hn)
    cases hps : preds g n with
    | nil => exact absurd hps hp
    | cons p ps =>
      apply le_trans (interList_subset_head _ _)
      unfold initDom
      by_cases hpe : p = e
      · rw [if_pos hpe]
        exact Finset.singleton_subset_iff.mpr (List.mem_toFinset.mpr he)
      · rw [if_neg hpe]
        exact Finset.Subset.refl _

theorem domIter_stable (g : CFG) (e : String) :
    ∀ (fuel : Nat) (D : String → Finset String), Inv g e D → muMeasure g D < fuel →
      domPass g e (nodeIds g) (domIter g e fuel D) false = (domIter g e fuel D, false) := by
  intro fuel
  induction fuel with
  | zero => intro D _ h; exact absurd h (Nat.not_lt_zero _)
  | succ k ih =>
    intro D hInv hmu
    obtain ⟨hInv2, _, hdisj⟩ :=
      domPass_spec g e (nodeIds g) D false (fun n hn => hn) hInv
    by_cases hch : (domPass g e (nodeIds g) D false).2 = true
    · rw [domIter, if_pos hch]
      apply ih _ hInv2
      rcases hdisj with hd | hd
      · rw [hd] at hch
        simp at hch
      · exact lt_of_lt_of_le hd.1 (Nat.lt_succ_iff.mp hmu)
    · rw [domIter, if_neg hch]
      rcases hdisj with hd | hd
      · rw [hd]
        simpa using hd
      · exact absurd hd.2 hch

theorem compute_dominators_spec (g : CFG) (e : String) (hent : g.entry = some e)
    (he : e ∈ nodeIds g) :
    compute_dominators g e = {e} ∧
    ∀ n ∈ nodeIds g, n ≠ e →
      compute_dominators g n =
        (if preds g n = [] then {n}
         else insert n (interList ((preds g n).map (compute_dominators g)))) := by
  have hcd : compute_dominators g =
      domIter g e (muMeasure g (initDom g e) + 1) (initDom g e) := by
    unfold compute_dominators
    rw [hent]
  have hstable :=
    domIter_stable g e (muMeasure g (initDom g e) + 1) (initDom g e)
      (inv_init g e he) (Nat.lt_succ_self _)
  constructor
  · rw [hcd, domIter_entry]
    unfold initDom
    rw [if_pos rfl]
  · intro n hn hne
    have hstep := domPass_false_eq g e (nodeIds g) _ _ hstable n hn hne
    rw [hcd]
    show domIter g e (muMeasure g (initDom g e) + 1) (initDom g e) n =
      stepNode g (domIter g e (muMeasure g (initDom g e) + 1) (initDom g e)) n
    rw [hstep]

end ZA.Cfg

open ZA in
/-- C4 (amended): the dominator computation reaches the standard iterative
fixpoint — at the returned map, Dom(entry) = \x7bentry\x7d and every
other node n satisfies Dom(n) = \x7bn\x7d ∪ ⋂ Dom(p) over its
predecessors, except that a predecessor-less non-entry node gets
Dom(n) = \x7bn\x7d rather than the universe the empty-intersection
convention (and the spec's unreachable-node remark) would give; and on
the synthetic if/else CFG whose only wipe lies on one branch, the
analyzer reports the exit reached via the other branch as problematic,
with that exit's line and dominator set. -/
theorem C4_dominators_fixpoint :
    (∀ (g : Cfg.CFG) (e : String), g.entry = some e → e ∈ Cfg.nodeIds g →
       Cfg.compute_dominators g e = {e} ∧
       ∀ n ∈ Cfg.nodeIds g, n ≠ e →
         Cfg.compute_dominators g n =
           (if Cfg.preds g n = [] then {n}
            else insert n (Cfg.interList ((Cfg.preds g n).map (Cfg.compute_dominators g))))) ∧
    Cfg.verify_wipe_dominates_exits cfgScenario =
      { wipeDominatesAllExits := false, wipeNodes := ["node_2"],
        problematicExits := [{ exitNode := "node_5", line := some 6,
                               dominators := cfgScenarioExitDoms }] } := by
  constructor
  · intro g e hent he
    exact Cfg.compute_dominators_spec g e hent he
  · decide

open ZA in
/-- Witness for C4 at the scenario CFG: the entry set and the fixpoint
equation of the unprotected exit, concretely. -/
theorem C4_dominators_fixpoint_witness :
    Cfg.compute_dominators cfgScenario "node_0" = {"node_0"} ∧
    Cfg.compute_dominators cfgScenario "node_5" =
      (if Cfg.preds cfgScenario "node_5" = [] then {"node_5"}
       else insert "node_5" (Cfg.interList ((Cfg.preds cfgScenario "node_5").map
         (Cfg.compute_dominators cfgScenario)))) :=
  ⟨(C4_dominators_fixpoint.1 cfgScenario "node_0" rfl (by decide)).1,
   (C4_dominators_fixpoint.1 cfgScenario "node_0" rfl (by decide)).2 "node_5"
      (by decide) (by decide)⟩

open ZA in
/-- Counterexample to C4 as stated: in `cfgOrphan` (producible by the CFG
builder from a file whose `if` is never closed) the merge node `node_2`
has no predecessors; the computation gives it Dom = \x7bnode_2\x7d, not
the universe that `\x7bn\x7d ∪ ⋂ over an empty predecessor family`
denotes under the spec's own convention for unreachable nodes. -/
theorem C4_predless_counterexample :
    Cfg.preds cfgOrphan "node_2" = [] ∧
    "node_2" ∈ Cfg.nodeIds cfgOrphan ∧
    Cfg.compute_dominators cfgOrphan "node_2" = {"node_2"} ∧
    Cfg.compute_dominators cfgOrphan "node_2" ≠
      {"node_2"} ∪ Cfg.allNodesFinset cfgOrphan := by
  refine ⟨rfl, by decide, by decide, by decide⟩
